import Mathlib

/-!
Verification of Resources/GenerateTransferSyntaxes.py.

The script loads a JSON table SYNTAXES (rows with a mandatory 'Value' field and
an optional 'GDCM' field), then patches two switch statements inside
Plugin/GdcmParsedDicomFile.cpp with re.sub:

  s = '\n\n'.join(map(Format, filter(lambda x: 'GDCM' in x, SYNTAXES)))
  a = re.sub('(GetGdcmTransferSyntax\\(Orthanc::DicomTransferSyntax.*?\\)\\s*\x7b\\s*switch \\([^)]*?\\)\\s*\x7b)[^\x7d]*?(\\s*default:)',
             r'\1\n%s\2' % s, a, re.DOTALL)

and the analogous substitution for GetOrthancTransferSyntax.  Note that
re.DOTALL is passed as the fourth POSITIONAL argument of re.sub, which is
`count`, not `flags`: the substitution is compiled without DOTALL (so `.`
does not match a newline) and performs up to int(re.DOTALL) = 16
replacements, not just one.

The embedding models text as `List Char`.  The two patterns are sequences of
string literals and single-character-class stars (lazy `.*?`, `[^)]*?`,
`[^\x7d]*?` and greedy `\s*`), so the regex engine is embedded as a
backtracking matcher over such token sequences, with Python's documented
strategy: leftmost match wins, a lazy star prefers consuming fewer
characters, a greedy star prefers consuming more, and earlier tokens
backtrack only after later alternatives are exhausted.
-/

set_option maxRecDepth 100000

namespace GenTS

/-- A regex token: a literal string, or a star over a one-character class.
`star true p` is a lazy (non-greedy) star `p*?`; `star false p` is a greedy
star `p*`.  Both patterns of the script consist only of such tokens. -/
inductive Tok where
  | lit : List Char → Tok
  | star : Bool → (Char → Bool) → Tok

/-- Add one to the head entry of a per-token consumption list (used when a
star consumes one more character). -/
def bump : List Nat → List Nat
  | [] => []
  | n :: ns => (n + 1) :: ns

/-- Fuel-driven backtracking matcher.  `matchSeqF f ts cs` tries to match the
token sequence `ts` against a prefix of `cs`; on success it returns the list
of lengths consumed by each token, choosing alternatives in Python's
priority order (lazy star: fewer characters first; greedy star: more
characters first).  Each recursive call decreases `ts.length + cs.length`,
so fuel `ts.length + cs.length + 1` always suffices. -/
def matchSeqF : Nat → List Tok → List Char → Option (List Nat)
  | 0, _, _ => none
  | _ + 1, [], _ => some []
  | f + 1, .lit l :: ts, cs =>
      if l.isPrefixOf cs then (matchSeqF f ts (cs.drop l.length)).map (fun ns => l.length :: ns)
      else none
  | f + 1, .star true p :: ts, cs =>
      match matchSeqF f ts cs with
      | some ns => some (0 :: ns)
      | none =>
          match cs with
          | [] => none
          | c :: cs' =>
              if p c then (matchSeqF f (.star true p :: ts) cs').map bump else none
  | f + 1, .star false p :: ts, cs =>
      match cs with
      | c :: cs' =>
          if p c then
            match matchSeqF f (.star false p :: ts) cs' with
            | some ns => some (bump ns)
            | none => (matchSeqF f ts (c :: cs')).map (fun ns => 0 :: ns)
          else (matchSeqF f ts (c :: cs')).map (fun ns => 0 :: ns)
      | [] => (matchSeqF f ts []).map (fun ns => 0 :: ns)

/-- Total matcher: `matchSeqF` with always-sufficient fuel. -/
def matchSeq (ts : List Tok) (cs : List Char) : Option (List Nat) :=
  matchSeqF (ts.length + cs.length + 1) ts cs

/-- Leftmost match search, as re.search does: try the pattern at offset 0,
then 1, and so on (also at the end-of-string position).  Returns the offset
of the first successful match together with its per-token lengths. -/
def findMatch (ts : List Tok) : List Char → Option (Nat × List Nat)
  | [] => match matchSeq ts [] with
      | some ns => some (0, ns)
      | none => none
  | c :: cs' =>
      match matchSeq ts (c :: cs') with
      | some ns => some (0, ns)
      | none => (findMatch ts cs').map (fun p => (p.1 + 1, p.2))

/-- One chunk of a parsed replacement template: a literal character, or a
reference to a capture group (0 is the whole match). -/
inductive TChunk where
  | lit : Char → TChunk
  | group : Nat → TChunk
deriving DecidableEq, Repr

/-- An octal digit. -/
def isOctChar (c : Char) : Bool := c.isDigit && decide (c.toNat ≤ 55)

/-- One step of Python's replacement-template scanner
(sre_parse.parse_template), applied to the first character `c` of the
remaining template and the characters `rest` after it.  Returns the chunks
this token contributes and how many characters of `rest` were consumed
(beyond `c` itself), or `none` where CPython raises re.error:
a trailing lone backslash, a malformed or non-numeric `\g<...>` name, a
group reference above the pattern's group count `G`, or (Python >= 3.7) a
backslash before an unrecognized ASCII letter.  `\0` with up to two more
octal digits and `\ooo` (three octal digits) are octal character escapes
masked to one byte; `\1`..`\99` are group references; `\a \b \f \n \r \t
\v \\` are the literal escapes; a backslash before any other character is
kept verbatim together with that character.  (Python's int() would also
accept a `\g<...>` name with surrounding whitespace, a sign, underscores or
non-ASCII digits; those never arise from this script's template and are
treated as errors here.) -/
def tmplStep (G : Nat) (c : Char) (rest : List Char) : Option (List TChunk × Nat) :=
  if c = '\\' then
    match rest with
    | [] => none
    | d :: r =>
        if d = 'g' then
          match r with
          | e :: r2 =>
              if e = '<' then
                match r2.dropWhile (fun x => x != '>') with
                | [] => none
                | _ :: _ =>
                    if (r2.takeWhile (fun x => x != '>')).isEmpty then none
                    else if (r2.takeWhile (fun x => x != '>')).all Char.isDigit then
                      if (r2.takeWhile (fun x => x != '>')).foldl
                          (fun a x => a * 10 + (x.toNat - 48)) 0 ≤ G then
                        some ([.group ((r2.takeWhile (fun x => x != '>')).foldl
                          (fun a x => a * 10 + (x.toNat - 48)) 0)],
                          3 + (r2.takeWhile (fun x => x != '>')).length)
                      else none
                    else none
              else none
          | [] => none
        else if d = '0' then
          match r with
          | d2 :: r2 =>
              if isOctChar d2 then
                match r2 with
                | d3 :: _ =>
                    if isOctChar d3 then
                      some ([.lit (Char.ofNat (((d2.toNat - 48) * 8 + (d3.toNat - 48)) % 256))], 3)
                    else some ([.lit (Char.ofNat ((d2.toNat - 48) % 256))], 2)
                | [] => some ([.lit (Char.ofNat ((d2.toNat - 48) % 256))], 2)
              else some ([.lit (Char.ofNat 0)], 1)
          | [] => some ([.lit (Char.ofNat 0)], 1)
        else if d.isDigit then
          match r with
          | d2 :: r2 =>
              if d2.isDigit then
                match r2 with
                | d3 :: _ =>
                    if isOctChar d && isOctChar d2 && isOctChar d3 then
                      some ([.lit (Char.ofNat ((((d.toNat - 48) * 8 + (d2.toNat - 48)) * 8 +
                        (d3.toNat - 48)) % 256))], 3)
                    else if (d.toNat - 48) * 10 + (d2.toNat - 48) ≤ G then
                      some ([.group ((d.toNat - 48) * 10 + (d2.toNat - 48))], 2)
                    else none
                | [] =>
                    if (d.toNat - 48) * 10 + (d2.toNat - 48) ≤ G then
                      some ([.group ((d.toNat - 48) * 10 + (d2.toNat - 48))], 2)
                    else none
              else if d.toNat - 48 ≤ G then some ([.group (d.toNat - 48)], 1) else none
          | [] => if d.toNat - 48 ≤ G then some ([.group (d.toNat - 48)], 1) else none
        else if d = 'a' then some ([.lit (Char.ofNat 7)], 1)
        else if d = 'b' then some ([.lit (Char.ofNat 8)], 1)
        else if d = 'f' then some ([.lit (Char.ofNat 12)], 1)
        else if d = 'n' then some ([.lit '\n'], 1)
        else if d = 'r' then some ([.lit '\r'], 1)
        else if d = 't' then some ([.lit '\t'], 1)
        else if d = 'v' then some ([.lit (Char.ofNat 11)], 1)
        else if d = '\\' then some ([.lit '\\'], 1)
        else if d.isAlpha then none
        else some ([.lit '\\', .lit d], 1)
  else some ([.lit c], 0)

/-- Fuel-driven loop of the template scanner: CPython parses the whole
replacement template once, before any match is attempted, and raises
re.error (here: `none`) on a bad template.  Each step consumes at least the
head character, so fuel `length + 1` always suffices. -/
def parseTemplateF (G : Nat) : Nat → List Char → Option (List TChunk)
  | 0, _ => none
  | _ + 1, [] => some []
  | f + 1, c :: rest =>
      match tmplStep G c rest with
      | none => none
      | some (em, k) => (parseTemplateF G f (rest.drop k)).map (fun cs => em ++ cs)

/-- Total template parser: `parseTemplateF` with always-sufficient fuel. -/
def parseTemplate (G : Nat) (cs : List Char) : Option (List TChunk) :=
  parseTemplateF G (cs.length + 1) cs

/-- Expansion of a parsed template at one match of the script's patterns
(which have exactly two capture groups): group 0 is the whole match, groups
1 and 2 the two captured spans. -/
def expand (whole g1 g2 : List Char) : List TChunk → List Char
  | [] => []
  | .lit c :: rest => c :: expand whole g1 g2 rest
  | .group 0 :: rest => whole ++ expand whole g1 g2 rest
  | .group 1 :: rest => g1 ++ expand whole g1 g2 rest
  | .group 2 :: rest => g2 ++ expand whole g1 g2 rest
  | .group _ :: rest => expand whole g1 g2 rest

/-- The characters of the script's replacement template r'\1\n%s\2' % s:
backslash, '1', backslash, 'n', the fragment block `s` verbatim (its own
backslashes included, since %-formatting does no escape processing), then
backslash, '2'. -/
def replTemplate (s : List Char) : List Char :=
  '\\' :: '1' :: '\\' :: 'n' :: (s ++ ['\\', '2'])

/-- The parsed form of the script's template when the fragment block `s`
contains no backslash of its own: group 1, a newline, `s` as literal text,
group 2. -/
def canonChunks (s : List Char) : List TChunk :=
  .group 1 :: .lit '\n' :: (s.map TChunk.lit ++ [.group 2])

/-- Model of re.sub for a pattern of shape `(g1 toks)(mid toks)(g2 toks)`
and an already-parsed replacement template: repeatedly find the leftmost
match, replace the whole matched span by the template expanded at that
match (group 1 is the text of token range `[0, k1)`, group 2 the text of
the tokens after position `k1 + kmid`), and continue after the match end,
at most `count` times.  (The script always calls it with
count = int(re.DOTALL) = 16; all matches of its patterns are nonempty, so
Python's empty-match rule never applies.) -/
def subRe (ts : List Tok) (k1 kmid : Nat) (chunks : List TChunk) : Nat → List Char → List Char
  | 0, cs => cs
  | n + 1, cs =>
      match findMatch ts cs with
      | none => cs
      | some (i, ns) =>
          (cs.take i) ++
            expand ((cs.drop i).take ns.sum) ((cs.drop i).take ((ns.take k1).sum))
              (((cs.drop i).drop ((ns.take (k1 + kmid)).sum)).take ((ns.drop (k1 + kmid)).sum))
              chunks ++
            subRe ts k1 kmid chunks n ((cs.drop i).drop ns.sum)

/-- Python's str.join on a separator: `joinSep sep [a, b, c] = a ++ sep ++ b ++ sep ++ c`. -/
def joinSep (sep : List Char) : List (List Char) → List Char
  | [] => []
  | [x] => x
  | x :: y :: xs => x ++ sep ++ joinSep sep (y :: xs)

/-- One row of the SYNTAXES JSON table.  The script reads x['Value']
(mandatory) and tests/reads the optional key 'GDCM'.  (The spec calls these
fields `identifier` and `externalIdentifier`.)  Other JSON fields are never
consumed and are omitted from the model. -/
structure SyntaxEntry where
  Value : List Char
  GDCM : Option (List Char)
deriving DecidableEq, Repr

/-- The script's filter `lambda x: 'GDCM' in x`: the entry has the 'GDCM' key. -/
def hasGDCM (x : SyntaxEntry) : Bool := x.GDCM.isSome

/-- First `Format` (line 57): '      case Orthanc::DicomTransferSyntax_%s:\n        return %s;'
applied to (x['Value'], x['GDCM']).  The script only applies it to filtered
entries, where 'GDCM' is present. -/
def FormatGdcm (x : SyntaxEntry) : List Char :=
  ("      case Orthanc::DicomTransferSyntax_".toList) ++ x.Value ++
    (":\n        return ".toList) ++ (x.GDCM.getD []) ++ ([';'])

/-- Second `Format` (line 76): '      case %s:\n        return Orthanc::DicomTransferSyntax_%s;'
applied to (x['GDCM'], x['Value']). -/
def FormatOrthanc (x : SyntaxEntry) : List Char :=
  ("      case ".toList) ++ (x.GDCM.getD []) ++
    (":\n        return Orthanc::DicomTransferSyntax_".toList) ++ x.Value ++ ([';'])

/-- Line 59: s = '\n\n'.join(map(Format, filter(lambda x: 'GDCM' in x, SYNTAXES))). -/
def fragmentsGdcm (syntaxes : List SyntaxEntry) : List Char :=
  joinSep ("\n\n".toList) ((syntaxes.filter hasGDCM).map FormatGdcm)

/-- Line 78: the same derivation with the second `Format`. -/
def fragmentsOrthanc (syntaxes : List SyntaxEntry) : List Char :=
  joinSep ("\n\n".toList) ((syntaxes.filter hasGDCM).map FormatOrthanc)

/-- Class of `.` when the pattern is compiled without re.DOTALL (the script
passes re.DOTALL in the `count` position, so DOTALL is NOT in effect):
any character except a newline. -/
def isDotNoNL (c : Char) : Bool := c != '\n'

/-- The characters matched by Python's `\s` on str patterns (Unicode
whitespace). -/
def wsChars : List Char :=
  [' ', '\t', '\n', '\r', '\x0b', '\x0c',
   '\x1c', '\x1d', '\x1e', '\x1f', '\x85', '\xa0',
   '\u1680', '\u2000', '\u2001', '\u2002', '\u2003', '\u2004', '\u2005',
   '\u2006', '\u2007', '\u2008', '\u2009', '\u200a',
   '\u2028', '\u2029', '\u202f', '\u205f', '\u3000']

/-- Class of `\s`. -/
def isWs (c : Char) : Bool := wsChars.contains c

/-- Class of `[^)]`. -/
def isNotRParen (c : Char) : Bool := c != ')'

/-- Class of `[^\x7d]`. -/
def isNotRBrace (c : Char) : Bool := c != '\x7d'

/-- The literal token 'default:' ending both anchor patterns. -/
def defaultLit : List Char := "default:".toList

/-- Head literal of the forward pattern (line 60). -/
def headFwd : List Char := "GetGdcmTransferSyntax(Orthanc::DicomTransferSyntax".toList

/-- Head literal of the reverse pattern (line 79). -/
def headRev : List Char := "GetOrthancTransferSyntax(gdcm::TransferSyntax".toList

/-- Tokens of the pattern after the head literal:
`.*?\)\s*\x7b\s*switch \([^)]*?\)\s*\x7b` then `[^\x7d]*?` then `\s*default:`. -/
def patTail : List Tok :=
  [.star true isDotNoNL, .lit [')'], .star false isWs, .lit ['\x7b'],
   .star false isWs, .lit ("switch (".toList), .star true isNotRParen, .lit [')'],
   .star false isWs, .lit ['\x7b'],
   .star true isNotRBrace,
   .star false isWs, .lit defaultLit]

/-- Token sequence of the pattern
`(HEAD.*?\)\s*\x7b\s*switch \([^)]*?\)\s*\x7b)[^\x7d]*?(\s*default:)`
compiled without DOTALL.  Group 1 is the first 11 tokens, the middle
(replaced) part is token 11, group 2 is the last two tokens. -/
def patToks (head : List Char) : List Tok := .lit head :: patTail

/-- Tokens of the GetGdcmTransferSyntax pattern (line 60). -/
def fwdToks : List Tok := patToks headFwd

/-- Tokens of the GetOrthancTransferSyntax pattern (line 79). -/
def revToks : List Tok := patToks headRev

/-- The sequence of file states the script writes to
Plugin/GdcmParsedDicomFile.cpp, and the final on-disk content.  A normal
run performs exactly two writes; when re.sub raises re.error on a bad
replacement template the script aborts at that point, so `writes` then
holds only the writes that happened before the exception (none if the
forward call raises, one if the reverse call does) and `final` is whatever
is on disk at that moment. -/
structure RunResult where
  writes : List (List Char)
  final : List Char
deriving DecidableEq, Repr

/-- The whole patching run of GenerateTransferSyntaxes.py on a given SYNTAXES
table and initial target-file content: substitute the forward fragments and
write the file (lines 52-64), then re-read, substitute the reverse fragments
and write again (lines 71-83).  Each re.sub call first parses its
replacement template r'\1\n%s\2' % s — escape-processing the fragment
block's own characters — and raises re.error on a bad template BEFORE any
match is attempted; an exception aborts the script, leaving the file as the
preceding write (or untouched if the forward call already raises). -/
def GenerateTransferSyntaxes (syntaxes : List SyntaxEntry) (target : List Char) : RunResult :=
  match parseTemplate 2 (replTemplate (fragmentsGdcm syntaxes)) with
  | none => ⟨[], target⟩
  | some chF =>
      match parseTemplate 2 (replTemplate (fragmentsOrthanc syntaxes)) with
      | none =>
          ⟨[subRe fwdToks 11 1 chF 16 target], subRe fwdToks 11 1 chF 16 target⟩
      | some chR =>
          ⟨[subRe fwdToks 11 1 chF 16 target,
            subRe revToks 11 1 chR 16 (subRe fwdToks 11 1 chF 16 target)],
           subRe revToks 11 1 chR 16 (subRe fwdToks 11 1 chF 16 target)⟩

/-- Property that `pat` does not occur in `s` (checked at every offset up to the length). -/
def NoOccurB (pat s : List Char) : Prop :=
  ∀ i, i ≤ s.length → ¬ (pat.isPrefixOf (List.drop i s) = true)

instance instDecidableNoOccurB (pat s : List Char) : Decidable (NoOccurB pat s) :=
  inferInstanceAs (Decidable (∀ i, i ≤ s.length → ¬ (pat.isPrefixOf (List.drop i s) = true)))

/-- The group-1 text of a canonical anchor region: function-head literal,
signature remainder `sig` (no right paren, no newline), right paren,
whitespace `w1`, opening brace, whitespace `w2`, switch opening, switch
argument `arg` (no right paren), right paren, whitespace `w3`, opening
brace. -/
def mkG1 (head sig w1 w2 arg w3 : List Char) : List Char :=
  head ++ sig ++ [')'] ++ w1 ++ ['\x7b'] ++ w2 ++ ("switch (".toList) ++ arg ++ [')'] ++
    w3 ++ ['\x7b']

/-- A full canonical anchor region: group-1 text, then the replaceable body,
then trailing whitespace `w4` and the default-case marker. -/
def mkRegion (head sig w1 w2 arg w3 body w4 : List Char) : List Char :=
  mkG1 head sig w1 w2 arg w3 ++ body ++ w4 ++ defaultLit

/-! ### The Template Generator (spec-modelled) -/

/-- Modelled from the spec: the Template Generator and its template file are
not under src/ (only the Patch Generator script is).  Per spec 4.2 the
rendering engine is an external capability "render(template, bindings) →
text"; the generator binds the full entry sequence and writes the rendered
text to a fixed output path, truncating any existing content. -/
structure TemplateEngine where
  render : List SyntaxEntry → List Char

/-- Modelled from the spec: one run of the Template Generator.  It reads the
entry sequence, renders the fixed template against it, and fully overwrites
the output file, so the previous output content does not influence the
result. -/
def RunTemplateGenerator (eng : TemplateEngine) (syntaxes : List SyntaxEntry)
    (_prevOutput : List Char) : List Char :=
  eng.render syntaxes

/-- A one-entry table: Value "A" with GDCM identifier "X". -/
def tblAX : List SyntaxEntry := [⟨("A".toList), some ("X".toList)⟩]

/-- The example table of the spec: entry "A" with external identifier "X",
entry "B" without one. -/
def tblC7 : List SyntaxEntry := [⟨("A".toList), some ("X".toList)⟩, ⟨("B".toList), none⟩]

/-- A table whose only Value is the string "default". -/
def tblDefault : List SyntaxEntry := [⟨("default".toList), some ("GDCM_X".toList)⟩]

/-- A target file containing the forward anchor region (body OLD1) but NO
reverse anchor region. -/
def fileFwdOnly : List Char := ("// pre\nGetGdcmTransferSyntax(Orthanc::DicomTransferSyntax syntax)\n  \x7b\n    switch (syntax)\n    \x7b\nOLD1\n      default:\n        return 0;\n    \x7d\n  \x7d\n// no reverse function here\n").toList

/-- The file `fileFwdOnly` with the forward body replaced by the generated clause for
table `tblAX` (what the script writes to disk). -/
def fileFwdOnlyPatched : List Char := ("// pre\nGetGdcmTransferSyntax(Orthanc::DicomTransferSyntax syntax)\n  \x7b\n    switch (syntax)\n    \x7b\n      case Orthanc::DicomTransferSyntax_A:\n        return X;\n      default:\n        return 0;\n    \x7d\n  \x7d\n// no reverse function here\n").toList

/-- A target file containing neither anchor region. -/
def fileNoAnchors : List Char := ("// nothing to patch\nint main() \x7b switch (x) \x7b default: return 0; \x7d \x7d\n").toList

/-- A target file containing both anchor regions (bodies OLD1 and OLD2). -/
def fileBothRegions : List Char := ("// pre\nGetGdcmTransferSyntax(Orthanc::DicomTransferSyntax syntax)\n  \x7b\n    switch (syntax)\n    \x7b\nOLD1\n      default:\n        return 0;\n    \x7d\n  \x7d\n\nGetOrthancTransferSyntax(gdcm::TransferSyntax syntax)\n  \x7b\n    switch (syntax)\n    \x7b\nOLD2\n      default:\n        return Orthanc::DicomTransferSyntax_A;\n    \x7d\n  \x7d\n").toList

/-- A target file containing TWO forward anchor regions (bodies OLD1, OLDX)
and no reverse region. -/
def fileTwoFwdRegions : List Char := ("//a\nGetGdcmTransferSyntax(Orthanc::DicomTransferSyntax syntax)\n  \x7b\n    switch (syntax)\n    \x7b\nOLD1\n      default:\n        return 0;\n    \x7d\n  \x7d\n//b\nGetGdcmTransferSyntax(Orthanc::DicomTransferSyntax syntax)\n  \x7b\n    switch (syntax)\n    \x7b\nOLDX\n      default:\n        return 0;\n    \x7d\n  \x7d\n").toList

/-- What the script actually produces from `fileTwoFwdRegions`: BOTH bodies
replaced. -/
def fileTwoFwdBothPatched : List Char := ("//a\nGetGdcmTransferSyntax(Orthanc::DicomTransferSyntax syntax)\n  \x7b\n    switch (syntax)\n    \x7b\n      case Orthanc::DicomTransferSyntax_A:\n        return X;\n      default:\n        return 0;\n    \x7d\n  \x7d\n//b\nGetGdcmTransferSyntax(Orthanc::DicomTransferSyntax syntax)\n  \x7b\n    switch (syntax)\n    \x7b\n      case Orthanc::DicomTransferSyntax_A:\n        return X;\n      default:\n        return 0;\n    \x7d\n  \x7d\n").toList

/-- What the claim predicts for `fileTwoFwdRegions`: only the first body
replaced, the second region untouched. -/
def fileTwoFwdOnlyFirstPatched : List Char := ("//a\nGetGdcmTransferSyntax(Orthanc::DicomTransferSyntax syntax)\n  \x7b\n    switch (syntax)\n    \x7b\n      case Orthanc::DicomTransferSyntax_A:\n        return X;\n      default:\n        return 0;\n    \x7d\n  \x7d\n//b\nGetGdcmTransferSyntax(Orthanc::DicomTransferSyntax syntax)\n  \x7b\n    switch (syntax)\n    \x7b\nOLDX\n      default:\n        return 0;\n    \x7d\n  \x7d\n").toList

/-- A target file containing both anchor regions with empty bodies. -/
def fileEmptyBodies : List Char := ("// pre\nGetGdcmTransferSyntax(Orthanc::DicomTransferSyntax syntax)\n  \x7b\n    switch (syntax)\n    \x7b\n      default:\n        return 0;\n    \x7d\n  \x7d\n\nGetOrthancTransferSyntax(gdcm::TransferSyntax syntax)\n  \x7b\n    switch (syntax)\n    \x7b\n      default:\n        return Orthanc::DicomTransferSyntax_A;\n    \x7d\n  \x7d\n").toList

/-- The script's output on `fileEmptyBodies` with table `tblC7`. -/
def fileEmptyBodiesPatched : List Char := ("// pre\nGetGdcmTransferSyntax(Orthanc::DicomTransferSyntax syntax)\n  \x7b\n    switch (syntax)\n    \x7b\n      case Orthanc::DicomTransferSyntax_A:\n        return X;\n      default:\n        return 0;\n    \x7d\n  \x7d\n\nGetOrthancTransferSyntax(gdcm::TransferSyntax syntax)\n  \x7b\n    switch (syntax)\n    \x7b\n      case X:\n        return Orthanc::DicomTransferSyntax_A;\n      default:\n        return Orthanc::DicomTransferSyntax_A;\n    \x7d\n  \x7d\n").toList

/-! ### Fuel stability and unfolding equations for the matcher -/

theorem matchSeqF_congr : ∀ f g : Nat, ∀ ts : List Tok, ∀ cs : List Char,
    ts.length + cs.length < f → ts.length + cs.length < g →
    matchSeqF f ts cs = matchSeqF g ts cs := by
  intro f
  induction f with
  | zero => intro g ts cs hf _; exact absurd hf (Nat.not_lt_zero _)
  | succ f ih =>
    intro g ts cs hf hg
    cases g with
    | zero => exact absurd hg (Nat.not_lt_zero _)
    | succ g =>
      cases ts with
      | nil => rfl
      | cons t ts =>
        cases t with
        | lit l =>
          simp only [matchSeqF]
          by_cases hp : l.isPrefixOf cs
          · simp only [hp, if_true]
            rw [ih g ts (cs.drop l.length)
                (by simp only [List.length_cons] at hf; have := List.length_drop l.length cs; omega)
                (by simp only [List.length_cons] at hg; have := List.length_drop l.length cs; omega)]
          · simp [hp]
        | star lz p =>
          cases lz with
          | true =>
            simp only [matchSeqF]
            rw [ih g ts cs (by simp only [List.length_cons] at hf; omega)
                (by simp only [List.length_cons] at hg; omega)]
            cases hm : matchSeqF g ts cs with
            | some ns => rfl
            | none =>
              cases cs with
              | nil => rfl
              | cons c cs' =>
                by_cases hpc : p c
                · simp only [hpc, if_true]
                  rw [ih g (.star true p :: ts) cs'
                      (by simp only [List.length_cons] at hf ⊢; omega)
                      (by simp only [List.length_cons] at hg ⊢; omega)]
                · simp [hpc]
          | false =>
            simp only [matchSeqF]
            cases cs with
            | nil =>
              rw [ih g ts [] (by simp only [List.length_cons] at hf; omega)
                  (by simp only [List.length_cons] at hg; omega)]
            | cons c cs' =>
              have hfall : matchSeqF f ts (c :: cs') = matchSeqF g ts (c :: cs') :=
                ih g ts (c :: cs') (by simp only [List.length_cons] at hf ⊢; omega)
                  (by simp only [List.length_cons] at hg ⊢; omega)
              by_cases hpc : p c
              · simp only [hpc, if_true]
                rw [ih g (.star false p :: ts) cs'
                    (by simp only [List.length_cons] at hf ⊢; omega)
                    (by simp only [List.length_cons] at hg ⊢; omega)]
                cases hm : matchSeqF g (.star false p :: ts) cs' with
                | some ns => rfl
                | none => rw [hfall]
              · simp only [hpc]
                simp only [Bool.false_eq_true, if_false]
                rw [hfall]

/-- Folding lemma: with sufficient fuel, `matchSeqF` computes `matchSeq`. -/
theorem matchSeqF_eq_matchSeq (f : Nat) (ts : List Tok) (cs : List Char)
    (h : ts.length + cs.length < f) : matchSeqF f ts cs = matchSeq ts cs :=
  matchSeqF_congr f (ts.length + cs.length + 1) ts cs h (Nat.lt_succ_self _)

theorem matchSeq_nilToks (cs : List Char) : matchSeq [] cs = some [] := rfl

theorem matchSeq_lit (l : List Char) (ts : List Tok) (cs : List Char) :
    matchSeq (.lit l :: ts) cs =
      if l.isPrefixOf cs then (matchSeq ts (cs.drop l.length)).map (fun ns => l.length :: ns)
      else none := by
  show matchSeqF ((Tok.lit l :: ts).length + cs.length + 1) (.lit l :: ts) cs = _
  rw [matchSeqF]
  by_cases hp : l.isPrefixOf cs
  · simp only [hp, if_true]
    rw [matchSeqF_eq_matchSeq _ ts (cs.drop l.length)
        (by simp only [List.length_cons]; have := List.length_drop l.length cs; omega)]
  · simp [hp]

theorem matchSeq_lazy (p : Char → Bool) (ts : List Tok) (cs : List Char) :
    matchSeq (.star true p :: ts) cs =
      match matchSeq ts cs with
      | some ns => some (0 :: ns)
      | none =>
          match cs with
          | [] => none
          | c :: cs' => if p c then (matchSeq (.star true p :: ts) cs').map bump else none := by
  cases cs with
  | nil =>
    show matchSeqF ((Tok.star true p :: ts).length + List.length [] + 1) (.star true p :: ts) [] = _
    rw [matchSeqF]
    rw [matchSeqF_eq_matchSeq _ ts [] (by simp only [List.length_cons]; omega)]
  | cons c cs' =>
    show matchSeqF ((Tok.star true p :: ts).length + (c :: cs').length + 1)
        (.star true p :: ts) (c :: cs') = _
    rw [matchSeqF]
    rw [matchSeqF_eq_matchSeq _ ts (c :: cs') (by simp only [List.length_cons]; omega)]
    cases hm : matchSeq ts (c :: cs') with
    | some ns => rfl
    | none =>
      by_cases hpc : p c
      · simp only [hpc, if_true]
        rw [matchSeqF_eq_matchSeq _ (.star true p :: ts) cs'
            (by simp only [List.length_cons]; omega)]
      · simp [hpc]

theorem matchSeq_greedy (p : Char → Bool) (ts : List Tok) (cs : List Char) :
    matchSeq (.star false p :: ts) cs =
      match cs with
      | c :: cs' =>
          if p c then
            match matchSeq (.star false p :: ts) cs' with
            | some ns => some (bump ns)
            | none => (matchSeq ts (c :: cs')).map (fun ns => 0 :: ns)
          else (matchSeq ts (c :: cs')).map (fun ns => 0 :: ns)
      | [] => (matchSeq ts []).map (fun ns => 0 :: ns) := by
  cases cs with
  | nil =>
    show matchSeqF ((Tok.star false p :: ts).length + List.length [] + 1) (.star false p :: ts) [] = _
    rw [matchSeqF]
    rw [matchSeqF_eq_matchSeq _ ts [] (by simp only [List.length_cons]; omega)]
  | cons c cs' =>
    show matchSeqF ((Tok.star false p :: ts).length + (c :: cs').length + 1)
        (.star false p :: ts) (c :: cs') = _
    rw [matchSeqF]
    by_cases hpc : p c
    · simp only [hpc, if_true]
      rw [matchSeqF_eq_matchSeq _ (.star false p :: ts) cs'
          (by simp only [List.length_cons]; omega)]
      cases hm : matchSeq (.star false p :: ts) cs' with
      | some ns => rfl
      | none =>
        rw [matchSeqF_eq_matchSeq _ ts (c :: cs') (by simp only [List.length_cons]; omega)]
    · simp only [hpc, Bool.false_eq_true, if_false]
      rw [matchSeqF_eq_matchSeq _ ts (c :: cs') (by simp only [List.length_cons]; omega)]

/-! ### Template-parsing lemmas -/

theorem parseTemplateF_congr (G : Nat) : ∀ f g : Nat, ∀ cs : List Char,
    cs.length < f → cs.length < g → parseTemplateF G f cs = parseTemplateF G g cs := by
  intro f
  induction f with
  | zero => intro g cs hf _; exact absurd hf (Nat.not_lt_zero _)
  | succ f ih =>
    intro g cs hf hg
    cases g with
    | zero => exact absurd hg (Nat.not_lt_zero _)
    | succ g =>
      cases cs with
      | nil => rfl
      | cons c rest =>
        simp only [parseTemplateF]
        cases hts : tmplStep G c rest with
        | none => rfl
        | some p =>
          cases p with
          | mk em k =>
            show Option.map (fun cs => em ++ cs) (parseTemplateF G f (List.drop k rest)) =
              Option.map (fun cs => em ++ cs) (parseTemplateF G g (List.drop k rest))
            rw [ih g (rest.drop k)
              (by have := List.length_drop k rest
                  simp only [List.length_cons] at hf; omega)
              (by have := List.length_drop k rest
                  simp only [List.length_cons] at hg; omega)]

theorem parseTemplate_cons (G : Nat) (c : Char) (rest : List Char) :
    parseTemplate G (c :: rest) =
      match tmplStep G c rest with
      | none => none
      | some (em, k) => (parseTemplate G (rest.drop k)).map (fun cs => em ++ cs) := by
  unfold parseTemplate
  simp only [List.length_cons, parseTemplateF]
  cases hts : tmplStep G c rest with
  | none => rfl
  | some p =>
    cases p with
    | mk em k =>
      show Option.map (fun cs => em ++ cs)
          (parseTemplateF G (rest.length + 1) (List.drop k rest)) =
        Option.map (fun cs => em ++ cs)
          (parseTemplateF G ((List.drop k rest).length + 1) (List.drop k rest))
      rw [parseTemplateF_congr G (rest.length + 1) ((rest.drop k).length + 1) (rest.drop k)
        (by have := List.length_drop k rest; omega) (Nat.lt_succ_self _)]

theorem tmplStep_lit (G : Nat) (c : Char) (rest : List Char) (h : ¬ c = '\\') :
    tmplStep G c rest = some ([.lit c], 0) := by
  simp [tmplStep, h]

theorem parseTemplate_literal_run : ∀ s : List Char, (∀ c ∈ s, ¬ c = '\\') →
    parseTemplate 2 (s ++ ['\\', '2']) = some (s.map TChunk.lit ++ [TChunk.group 2]) := by
  intro s
  induction s with
  | nil =>
    intro _
    rw [List.nil_append, parseTemplate_cons]
    rfl
  | cons c s' ih =>
    intro h
    rw [List.cons_append, parseTemplate_cons,
      tmplStep_lit 2 c (s' ++ ['\\', '2']) (h c (by simp))]
    simp only [List.drop_zero]
    rw [ih (fun d hd => h d (by simp [hd]))]
    rfl

/-- Parsing the script's template r'\1\n%s\2' % s when the fragment block
`s` contains no backslash: group 1, a literal newline, `s` verbatim,
group 2 — exactly the splice the script intends. -/
theorem parseTemplate_canonical (s : List Char) (h : ∀ c ∈ s, ¬ c = '\\') :
    parseTemplate 2 (replTemplate s) = some (canonChunks s) := by
  have h1 : tmplStep 2 '\\' ('1' :: '\\' :: 'n' :: (s ++ ['\\', '2'])) =
      some ([.group 1], 1) := rfl
  have h2 : tmplStep 2 '\\' ('n' :: (s ++ ['\\', '2'])) = some ([.lit '\n'], 1) := rfl
  rw [replTemplate, parseTemplate_cons, h1]
  simp only [List.drop_succ_cons, List.drop_zero]
  rw [parseTemplate_cons, h2]
  simp only [List.drop_succ_cons, List.drop_zero]
  rw [parseTemplate_literal_run s h]
  rfl

theorem expand_mapLit (W g1 g2 : List Char) (s : List Char) (rest : List TChunk) :
    expand W g1 g2 (s.map TChunk.lit ++ rest) = s ++ expand W g1 g2 rest := by
  induction s with
  | nil => rfl
  | cons c s' ih => simp [expand, ih]

/-- Expanding the canonical template at a match: group-1 text, a newline,
the fragment block, group-2 text. -/
theorem expand_canonical (W g1 g2 s : List Char) :
    expand W g1 g2 (canonChunks s) = g1 ++ ('\n' :: (s ++ g2)) := by
  rw [canonChunks]
  simp [expand, expand_mapLit]

/-- When both fragment blocks are free of backslashes, both replacement
templates parse, so the run is the two `re.sub` passes with the canonical
chunk lists and both writes happen. -/
theorem Gen_unfold (tbl : List SyntaxEntry) (target : List Char)
    (hF : ∀ c ∈ fragmentsGdcm tbl, ¬ c = '\\')
    (hR : ∀ c ∈ fragmentsOrthanc tbl, ¬ c = '\\') :
    GenerateTransferSyntaxes tbl target =
      ⟨[subRe fwdToks 11 1 (canonChunks (fragmentsGdcm tbl)) 16 target,
        subRe revToks 11 1 (canonChunks (fragmentsOrthanc tbl)) 16
          (subRe fwdToks 11 1 (canonChunks (fragmentsGdcm tbl)) 16 target)],
       subRe revToks 11 1 (canonChunks (fragmentsOrthanc tbl)) 16
         (subRe fwdToks 11 1 (canonChunks (fragmentsGdcm tbl)) 16 target)⟩ := by
  unfold GenerateTransferSyntaxes
  rw [parseTemplate_canonical _ hF, parseTemplate_canonical _ hR]

/-! ### Exact-match and failure lemmas for single tokens -/

theorem isPrefixOf_append_self (l r : List Char) : l.isPrefixOf (l ++ r) = true := by
  simp [List.isPrefixOf_iff_prefix]

theorem matchSeq_lit_exact (l : List Char) (ts : List Tok) (rest : List Char) :
    matchSeq (.lit l :: ts) (l ++ rest) = (matchSeq ts rest).map (fun ns => l.length :: ns) := by
  rw [matchSeq_lit, isPrefixOf_append_self, if_pos rfl, List.drop_left]

theorem matchSeq_lit_fail (l : List Char) (ts : List Tok) (cs : List Char)
    (h : ¬ (l.isPrefixOf cs = true)) : matchSeq (.lit l :: ts) cs = none := by
  rw [matchSeq_lit]
  simp [h]

/-- A greedy star over class `p` followed by more tokens: if `w` is all-`p`,
the next character (if any) is not `p`, and the continuation matches, the
star consumes exactly `w`.  (The greedy star tries the longest consumption
first, cannot go past the first non-`p` character, and the continuation
succeeds there, so no backtracking into `w` happens.) -/
theorem matchSeq_greedy_exact (p : Char → Bool) (ts : List Tok) (w rest : List Char)
    (ns : List Nat) (hw : ∀ c ∈ w, p c = true)
    (hstop : ∀ c, rest.head? = some c → p c = false)
    (hts : matchSeq ts rest = some ns) :
    matchSeq (.star false p :: ts) (w ++ rest) = some (w.length :: ns) := by
  induction w with
  | nil =>
    rw [List.nil_append, matchSeq_greedy]
    cases rest with
    | nil => simp [hts]
    | cons c cs0 =>
      have hc : p c = false := hstop c rfl
      simp [hc, hts]
  | cons c w' ih =>
    rw [List.cons_append, matchSeq_greedy]
    have hc : p c = true := hw c (by simp)
    simp only [hc, if_true]
    rw [ih (fun d hd => hw d (by simp [hd]))]
    rfl

/-- A lazy star over class `p` followed by more tokens: if `body` is
all-`p`, the continuation fails at every earlier cut inside `body` and
succeeds right after `body`, the star consumes exactly `body` (the lazy
star tries the shortest consumption first). -/
theorem matchSeq_lazy_exact (p : Char → Bool) (ts : List Tok) (body rest : List Char)
    (ns : List Nat) (hb : ∀ c ∈ body, p c = true)
    (hfail : ∀ k, k < body.length → matchSeq ts (List.drop k (body ++ rest)) = none)
    (hts : matchSeq ts rest = some ns) :
    matchSeq (.star true p :: ts) (body ++ rest) = some (body.length :: ns) := by
  induction body with
  | nil =>
    rw [List.nil_append, matchSeq_lazy]
    simp [hts]
  | cons c body' ih =>
    rw [List.cons_append, matchSeq_lazy]
    have h0 : matchSeq ts (c :: (body' ++ rest)) = none := by
      have := hfail 0 (by simp)
      simpa using this
    rw [h0]
    have hc : p c = true := hb c (by simp)
    simp only [hc, if_true]
    rw [ih (fun d hd => hb d (by simp [hd]))
        (fun k hk => by
          have := hfail (k + 1) (by simp only [List.length_cons]; omega)
          simpa using this)]
    rfl

/-- A literal starting with `d` fails everywhere strictly inside a block `x`
of non-`d` characters. -/
theorem matchSeq_litFail_within (d : Char) (l' : List Char) (ts : List Tok) (x r : List Char)
    (hx : ∀ c ∈ x, ¬ c = d) :
    ∀ k, k < x.length → matchSeq (.lit (d :: l') :: ts) (List.drop k (x ++ r)) = none := by
  induction x with
  | nil => intro k hk; exact absurd hk (by simp)
  | cons c x' ih =>
    intro k hk
    cases k with
    | zero =>
      rw [List.drop_zero, List.cons_append]
      apply matchSeq_lit_fail
      have hc : ¬ c = d := hx c (by simp)
      simp [List.isPrefixOf]
      intro hdc
      exact absurd hdc.symm hc
    | succ k =>
      rw [List.cons_append, List.drop_succ_cons]
      exact ih (fun e he => hx e (by simp [he])) k
        (by simp only [List.length_cons] at hk; omega)

/-- A greedy star over `p` followed by a literal whose first character is
not `p`: the literal can only be tried at the end of the maximal `p`-run,
so if it is not a prefix there, the whole sequence fails (whatever follows
the literal). -/
theorem matchSeq_greedyLit_fail (p : Char → Bool) (d : Char) (l' : List Char) (ts : List Tok)
    (cs : List Char) (hd : p d = false)
    (h : ¬ ((d :: l').isPrefixOf (cs.dropWhile p) = true)) :
    matchSeq (.star false p :: .lit (d :: l') :: ts) cs = none := by
  induction cs with
  | nil =>
    rw [matchSeq_greedy]
    rw [matchSeq_lit_fail (d :: l') ts [] (by simp [List.isPrefixOf])]
    rfl
  | cons c cs' ih =>
    by_cases hpc : p c
    · have hdw : (c :: cs').dropWhile p = cs'.dropWhile p := by simp [List.dropWhile, hpc]
      rw [matchSeq_greedy]
      simp only [hpc, if_true]
      rw [ih (by rw [hdw] at h; exact h)]
      have hcd : ¬ c = d := by
        intro he; subst he; rw [hpc] at hd; exact Bool.noConfusion hd
      rw [matchSeq_lit_fail (d :: l') ts (c :: cs')
          (by simp [List.isPrefixOf]; intro hdc; exact absurd hdc.symm hcd)]
      rfl
    · have hdw : (c :: cs').dropWhile p = c :: cs' := by
        simp [List.dropWhile_cons_of_neg, hpc]
      rw [matchSeq_greedy]
      simp only [Bool.not_eq_true] at hpc
      simp only [hpc, Bool.false_eq_true, if_false]
      rw [matchSeq_lit_fail (d :: l') ts (c :: cs') (by rw [hdw] at h; exact h)]
      rfl

/-! ### findMatch lemmas -/

theorem findMatch_at_zero (ts : List Tok) (cs : List Char) (ns : List Nat)
    (h : matchSeq ts cs = some ns) : findMatch ts cs = some (0, ns) := by
  cases cs with
  | nil => simp [findMatch, h]
  | cons c cs' => simp [findMatch, h]

/-- If the pattern fails at every offset inside `pre`, the leftmost match of
`pre ++ X` is the leftmost match of `X`, shifted. -/
theorem findMatch_prepend (T : List Tok) (pre X : List Char)
    (hno : ∀ i, i < pre.length → matchSeq T (List.drop i (pre ++ X)) = none) :
    findMatch T (pre ++ X) = (findMatch T X).map (fun q => (pre.length + q.1, q.2)) := by
  induction pre with
  | nil =>
    rw [List.nil_append]
    cases hfm : findMatch T X with
    | none => rfl
    | some q => cases q with | mk i ns => simp
  | cons c pre' ih =>
    rw [List.cons_append]
    have h0 : matchSeq T (c :: (pre' ++ X)) = none := by
      have := hno 0 (by simp)
      simpa using this
    simp only [findMatch, h0]
    rw [ih (fun i hi => by
      have := hno (i + 1) (by simp only [List.length_cons]; omega)
      simpa using this)]
    cases hfm : findMatch T X with
    | none => rfl
    | some q =>
      cases q with
      | mk i ns =>
        show some (pre'.length + i + 1, ns) = some ((c :: pre').length + i, ns)
        have h2 : pre'.length + i + 1 = (c :: pre').length + i := by
          simp only [List.length_cons]; omega
        rw [h2]

theorem findMatch_none_of_noOccurB (pat : List Char) (ts : List Tok) (s : List Char)
    (hne : ¬ pat = []) (h : NoOccurB pat s) : findMatch (.lit pat :: ts) s = none := by
  induction s with
  | nil =>
    have h0 : matchSeq (.lit pat :: ts) [] = none := by
      apply matchSeq_lit_fail
      cases pat with
      | nil => exact absurd rfl hne
      | cons d l' => simp [List.isPrefixOf]
    simp [findMatch, h0]
  | cons c s' ih =>
    have h0 : matchSeq (.lit pat :: ts) (c :: s') = none := by
      apply matchSeq_lit_fail
      have := h 0 (by omega)
      simpa using this
    simp only [findMatch, h0]
    rw [ih (fun i hi => by
      have := h (i + 1) (by simp only [List.length_cons]; omega)
      simpa using this)]
    rfl

/-- If the head literal of the pattern does not occur in `cs`, re.sub
returns `cs` unchanged (whatever the replacement and count). -/
theorem subRe_noOccur (pat : List Char) (ts : List Tok) (k1 kmid : Nat)
    (chunks : List TChunk) (n : Nat) (cs : List Char) (hne : ¬ pat = [])
    (h : NoOccurB pat cs) :
    subRe (.lit pat :: ts) k1 kmid chunks n cs = cs := by
  cases n with
  | zero => rfl
  | succ n => rw [subRe, findMatch_none_of_noOccurB pat ts cs hne h]

/-! ### Canonical anchor regions and the match characterization -/

theorem switchToksLen : ("switch (".toList).length = 8 := rfl

theorem defaultLitLen : defaultLit.length = 8 := rfl

theorem wsStop (c0 : Char) (r : List Char) (h : isWs c0 = false) :
    ∀ c, ((c0 :: r).head? = some c) → isWs c = false := by
  intro c hc
  have h2 : c0 = c := by simpa using hc
  rw [← h2]; exact h

theorem ne_rparen_of (c : Char) (h : isNotRParen c = true) : ¬ c = ')' := by
  intro he; subst he; simp [isNotRParen] at h

/-- Matching one of the two patterns against a canonical region (followed by
anything): every token consumes exactly its canonical slice.  The
`hearly` hypothesis says the default-marker cannot be matched at an earlier
cut inside the body, which pins down the lazy body star. -/
theorem matchSeq_region (head sig w1 w2 arg w3 body w4 tail : List Char)
    (hsig1 : ∀ c ∈ sig, isDotNoNL c = true)
    (hsig2 : ∀ c ∈ sig, isNotRParen c = true)
    (hw1 : ∀ c ∈ w1, isWs c = true) (hw2 : ∀ c ∈ w2, isWs c = true)
    (harg : ∀ c ∈ arg, isNotRParen c = true) (hw3 : ∀ c ∈ w3, isWs c = true)
    (hbody : ∀ c ∈ body, isNotRBrace c = true) (hw4 : ∀ c ∈ w4, isWs c = true)
    (hearly : ∀ k, k < body.length →
      ¬ (defaultLit.isPrefixOf
          ((List.drop k (body ++ w4 ++ defaultLit ++ tail)).dropWhile isWs) = true)) :
    matchSeq (patToks head) (mkRegion head sig w1 w2 arg w3 body w4 ++ tail) =
      some [head.length, sig.length, 1, w1.length, 1, w2.length, 8, arg.length, 1, w3.length,
            1, body.length, w4.length, 8] := by
  have e13 : matchSeq [.lit defaultLit] (defaultLit ++ tail) = some [8] := by
    rw [matchSeq_lit_exact, matchSeq_nilToks]; rfl
  have e12 : matchSeq [.star false isWs, .lit defaultLit]
      (w4 ++ (defaultLit ++ tail)) = some [w4.length, 8] := by
    refine matchSeq_greedy_exact isWs [.lit defaultLit] w4 (defaultLit ++ tail) [8] hw4 ?_ e13
    exact wsStop 'd' (("efault:".toList) ++ tail) (by decide)
  have e11 : matchSeq [.star true isNotRBrace, .star false isWs, .lit defaultLit]
      (body ++ (w4 ++ (defaultLit ++ tail))) = some [body.length, w4.length, 8] := by
    refine matchSeq_lazy_exact isNotRBrace [.star false isWs, .lit defaultLit] body
        (w4 ++ (defaultLit ++ tail)) [w4.length, 8] hbody ?_ e12
    intro k hk
    refine matchSeq_greedyLit_fail isWs 'd' ("efault:".toList) [] _ (by decide) ?_
    have := hearly k hk
    simpa [List.append_assoc] using this
  have e10 : matchSeq (.lit ['\x7b'] :: [.star true isNotRBrace, .star false isWs, .lit defaultLit])
      (['\x7b'] ++ (body ++ (w4 ++ (defaultLit ++ tail)))) =
      some [1, body.length, w4.length, 8] := by
    rw [matchSeq_lit_exact, e11]; rfl
  have e9 : matchSeq (.star false isWs :: .lit ['\x7b'] ::
        [.star true isNotRBrace, .star false isWs, .lit defaultLit])
      (w3 ++ (['\x7b'] ++ (body ++ (w4 ++ (defaultLit ++ tail))))) =
      some [w3.length, 1, body.length, w4.length, 8] := by
    refine matchSeq_greedy_exact isWs _ w3 _ _ hw3 ?_ e10
    exact wsStop '\x7b' (body ++ (w4 ++ (defaultLit ++ tail))) (by decide)
  have e8 : matchSeq (.lit [')'] :: .star false isWs :: .lit ['\x7b'] ::
        [.star true isNotRBrace, .star false isWs, .lit defaultLit])
      ([')'] ++ (w3 ++ (['\x7b'] ++ (body ++ (w4 ++ (defaultLit ++ tail)))))) =
      some [1, w3.length, 1, body.length, w4.length, 8] := by
    rw [matchSeq_lit_exact, e9]; rfl
  have e7 : matchSeq (.star true isNotRParen :: .lit [')'] :: .star false isWs :: .lit ['\x7b'] ::
        [.star true isNotRBrace, .star false isWs, .lit defaultLit])
      (arg ++ ([')'] ++ (w3 ++ (['\x7b'] ++ (body ++ (w4 ++ (defaultLit ++ tail))))))) =
      some [arg.length, 1, w3.length, 1, body.length, w4.length, 8] := by
    refine matchSeq_lazy_exact isNotRParen _ arg _ _ harg ?_ e8
    intro k hk
    exact matchSeq_litFail_within ')' [] _ arg _ (fun c hc => ne_rparen_of c (harg c hc)) k hk
  have e6 : matchSeq (.lit ("switch (".toList) :: .star true isNotRParen :: .lit [')'] ::
        .star false isWs :: .lit ['\x7b'] ::
        [.star true isNotRBrace, .star false isWs, .lit defaultLit])
      (("switch (".toList) ++ (arg ++ ([')'] ++ (w3 ++ (['\x7b'] ++
        (body ++ (w4 ++ (defaultLit ++ tail)))))))) =
      some [8, arg.length, 1, w3.length, 1, body.length, w4.length, 8] := by
    rw [matchSeq_lit_exact, e7]; rfl
  have e5 : matchSeq (.star false isWs :: .lit ("switch (".toList) :: .star true isNotRParen ::
        .lit [')'] :: .star false isWs :: .lit ['\x7b'] ::
        [.star true isNotRBrace, .star false isWs, .lit defaultLit])
      (w2 ++ (("switch (".toList) ++ (arg ++ ([')'] ++ (w3 ++ (['\x7b'] ++
        (body ++ (w4 ++ (defaultLit ++ tail))))))))) =
      some [w2.length, 8, arg.length, 1, w3.length, 1, body.length, w4.length, 8] := by
    refine matchSeq_greedy_exact isWs _ w2 _ _ hw2 ?_ e6
    exact wsStop 's' (("witch (".toList) ++ (arg ++ ([')'] ++ (w3 ++ (['\x7b'] ++
      (body ++ (w4 ++ (defaultLit ++ tail)))))))) (by decide)
  have e4 : matchSeq (.lit ['\x7b'] :: .star false isWs :: .lit ("switch (".toList) ::
        .star true isNotRParen :: .lit [')'] :: .star false isWs :: .lit ['\x7b'] ::
        [.star true isNotRBrace, .star false isWs, .lit defaultLit])
      (['\x7b'] ++ (w2 ++ (("switch (".toList) ++ (arg ++ ([')'] ++ (w3 ++ (['\x7b'] ++
        (body ++ (w4 ++ (defaultLit ++ tail)))))))))) =
      some [1, w2.length, 8, arg.length, 1, w3.length, 1, body.length, w4.length, 8] := by
    rw [matchSeq_lit_exact, e5]; rfl
  have e3 : matchSeq (.star false isWs :: .lit ['\x7b'] :: .star false isWs ::
        .lit ("switch (".toList) :: .star true isNotRParen :: .lit [')'] :: .star false isWs ::
        .lit ['\x7b'] :: [.star true isNotRBrace, .star false isWs, .lit defaultLit])
      (w1 ++ (['\x7b'] ++ (w2 ++ (("switch (".toList) ++ (arg ++ ([')'] ++ (w3 ++ (['\x7b'] ++
        (body ++ (w4 ++ (defaultLit ++ tail))))))))))) =
      some [w1.length, 1, w2.length, 8, arg.length, 1, w3.length, 1, body.length, w4.length, 8] := by
    refine matchSeq_greedy_exact isWs _ w1 _ _ hw1 ?_ e4
    exact wsStop '\x7b' (w2 ++ (("switch (".toList) ++ (arg ++ ([')'] ++ (w3 ++ (['\x7b'] ++
      (body ++ (w4 ++ (defaultLit ++ tail))))))))) (by decide)
  have e2 : matchSeq (.lit [')'] :: .star false isWs :: .lit ['\x7b'] :: .star false isWs ::
        .lit ("switch (".toList) :: .star true isNotRParen :: .lit [')'] :: .star false isWs ::
        .lit ['\x7b'] :: [.star true isNotRBrace, .star false isWs, .lit defaultLit])
      ([')'] ++ (w1 ++ (['\x7b'] ++ (w2 ++ (("switch (".toList) ++ (arg ++ ([')'] ++ (w3 ++
        (['\x7b'] ++ (body ++ (w4 ++ (defaultLit ++ tail)))))))))))) =
      some [1, w1.length, 1, w2.length, 8, arg.length, 1, w3.length, 1, body.length,
            w4.length, 8] := by
    rw [matchSeq_lit_exact, e3]; rfl
  have e1 : matchSeq (.star true isDotNoNL :: .lit [')'] :: .star false isWs :: .lit ['\x7b'] ::
        .star false isWs :: .lit ("switch (".toList) :: .star true isNotRParen :: .lit [')'] ::
        .star false isWs :: .lit ['\x7b'] ::
        [.star true isNotRBrace, .star false isWs, .lit defaultLit])
      (sig ++ ([')'] ++ (w1 ++ (['\x7b'] ++ (w2 ++ (("switch (".toList) ++ (arg ++ ([')'] ++
        (w3 ++ (['\x7b'] ++ (body ++ (w4 ++ (defaultLit ++ tail))))))))))))) =
      some [sig.length, 1, w1.length, 1, w2.length, 8, arg.length, 1, w3.length, 1,
            body.length, w4.length, 8] := by
    refine matchSeq_lazy_exact isDotNoNL _ sig _ _ hsig1 ?_ e2
    intro k hk
    exact matchSeq_litFail_within ')' [] _ sig _ (fun c hc => ne_rparen_of c (hsig2 c hc)) k hk
  have e0 : matchSeq (.lit head :: .star true isDotNoNL :: .lit [')'] :: .star false isWs ::
        .lit ['\x7b'] :: .star false isWs :: .lit ("switch (".toList) :: .star true isNotRParen ::
        .lit [')'] :: .star false isWs :: .lit ['\x7b'] ::
        [.star true isNotRBrace, .star false isWs, .lit defaultLit])
      (head ++ (sig ++ ([')'] ++ (w1 ++ (['\x7b'] ++ (w2 ++ (("switch (".toList) ++ (arg ++
        ([')'] ++ (w3 ++ (['\x7b'] ++ (body ++ (w4 ++ (defaultLit ++ tail)))))))))))))) =
      some [head.length, sig.length, 1, w1.length, 1, w2.length, 8, arg.length, 1, w3.length,
            1, body.length, w4.length, 8] := by
    rw [matchSeq_lit_exact, e1]; rfl
  have hS : mkRegion head sig w1 w2 arg w3 body w4 ++ tail =
      head ++ (sig ++ ([')'] ++ (w1 ++ (['\x7b'] ++ (w2 ++ (("switch (".toList) ++ (arg ++
        ([')'] ++ (w3 ++ (['\x7b'] ++ (body ++ (w4 ++ (defaultLit ++ tail))))))))))))) := by
    simp [mkRegion, mkG1, List.append_assoc]
  rw [hS]
  exact e0

/-! ### One re.sub replacement step on a decomposed match -/

/-- If the leftmost match starts right after `pre` and its per-token lengths
split the matched text as `g1 ++ mid ++ g2`, one substitution step keeps
`pre` and `g1`, replaces `mid` with the replacement, keeps `g2`, and
continues (with one fewer remaining replacement) on `tail`. -/
theorem subRe_splice (T : List Tok) (k1 kmid : Nat) (chunks : List TChunk) (n : Nat)
    (pre g1 mid g2 tail : List Char) (NS : List Nat)
    (hfm : findMatch T (pre ++ (g1 ++ (mid ++ (g2 ++ tail)))) = some (pre.length, NS))
    (h1 : (NS.take k1).sum = g1.length)
    (h2 : (NS.take (k1 + kmid)).sum = g1.length + mid.length)
    (h3 : (NS.drop (k1 + kmid)).sum = g2.length)
    (hsum : NS.sum = g1.length + mid.length + g2.length) :
    subRe T k1 kmid chunks (n + 1) (pre ++ (g1 ++ (mid ++ (g2 ++ tail)))) =
      pre ++ (expand (g1 ++ (mid ++ g2)) g1 g2 chunks ++ subRe T k1 kmid chunks n tail) := by
  have hd2 : (g1 ++ (mid ++ (g2 ++ tail))).drop (g1.length + mid.length) = g2 ++ tail := by
    rw [← List.append_assoc]
    exact List.drop_left' (by simp)
  have hd3 : (g1 ++ (mid ++ (g2 ++ tail))).drop (g1.length + mid.length + g2.length) = tail := by
    rw [← List.append_assoc, ← List.append_assoc]
    exact List.drop_left' (by simp [Nat.add_assoc])
  have hW : (g1 ++ (mid ++ (g2 ++ tail))).take (g1.length + mid.length + g2.length) =
      g1 ++ (mid ++ g2) := by
    rw [show g1 ++ (mid ++ (g2 ++ tail)) = (g1 ++ (mid ++ g2)) ++ tail by
      simp [List.append_assoc]]
    exact List.take_left' (by simp [Nat.add_assoc])
  rw [subRe, hfm]
  simp only [List.take_left, List.drop_left]
  rw [h1, List.take_left, h2, hd2, h3, List.take_left, hsum, hW, hd3]
  simp [List.append_assoc]

/-- One substitution step of either pattern on `pre`, then a canonical
region, then `tail`: assuming the head literal does not occur inside `pre`,
the replaceable body is swapped for the replacement and the engine moves on
to `tail`. -/
theorem subRe_region_step (head sig w1 w2 arg w3 body w4 tail pre s : List Char) (n : Nat)
    (hsig1 : ∀ c ∈ sig, isDotNoNL c = true)
    (hsig2 : ∀ c ∈ sig, isNotRParen c = true)
    (hw1 : ∀ c ∈ w1, isWs c = true) (hw2 : ∀ c ∈ w2, isWs c = true)
    (harg : ∀ c ∈ arg, isNotRParen c = true) (hw3 : ∀ c ∈ w3, isWs c = true)
    (hbody : ∀ c ∈ body, isNotRBrace c = true) (hw4 : ∀ c ∈ w4, isWs c = true)
    (hearly : ∀ k, k < body.length →
      ¬ (defaultLit.isPrefixOf
          ((List.drop k (body ++ w4 ++ defaultLit ++ tail)).dropWhile isWs) = true))
    (hpre : ∀ i, i < pre.length → ¬ (head.isPrefixOf
        (List.drop i (pre ++ (mkRegion head sig w1 w2 arg w3 body w4 ++ tail))) = true)) :
    subRe (patToks head) 11 1 (canonChunks s) (n + 1)
        (pre ++ (mkRegion head sig w1 w2 arg w3 body w4 ++ tail)) =
      pre ++ (mkG1 head sig w1 w2 arg w3 ++ (('\n' :: s) ++ ((w4 ++ defaultLit) ++
        subRe (patToks head) 11 1 (canonChunks s) n tail))) := by
  have hre := matchSeq_region head sig w1 w2 arg w3 body w4 tail hsig1 hsig2 hw1 hw2 harg hw3
    hbody hw4 hearly
  have hfm : findMatch (patToks head) (pre ++ (mkRegion head sig w1 w2 arg w3 body w4 ++ tail)) =
      some (pre.length,
        [head.length, sig.length, 1, w1.length, 1, w2.length, 8, arg.length, 1, w3.length,
         1, body.length, w4.length, 8]) := by
    rw [findMatch_prepend (patToks head) pre _
      (fun i hi => matchSeq_lit_fail head patTail _ (hpre i hi))]
    rw [findMatch_at_zero _ _ _ hre]
    rfl
  have hshape : pre ++ (mkRegion head sig w1 w2 arg w3 body w4 ++ tail) =
      pre ++ (mkG1 head sig w1 w2 arg w3 ++ (body ++ ((w4 ++ defaultLit) ++ tail))) := by
    simp [mkRegion, List.append_assoc]
  rw [hshape] at hfm
  rw [hshape]
  have h1s : (([head.length, sig.length, 1, w1.length, 1, w2.length, 8, arg.length, 1,
      w3.length, 1, body.length, w4.length, 8] : List Nat).take 11).sum =
      (mkG1 head sig w1 w2 arg w3).length := by
    simp [mkG1, switchToksLen]
    omega
  have h2s : (([head.length, sig.length, 1, w1.length, 1, w2.length, 8, arg.length, 1,
      w3.length, 1, body.length, w4.length, 8] : List Nat).take 12).sum =
      (mkG1 head sig w1 w2 arg w3).length + body.length := by
    simp [mkG1, switchToksLen]
    omega
  have h3s : (([head.length, sig.length, 1, w1.length, 1, w2.length, 8, arg.length, 1,
      w3.length, 1, body.length, w4.length, 8] : List Nat).drop 12).sum =
      (w4 ++ defaultLit).length := by
    simp [defaultLitLen]
  have hsums : ([head.length, sig.length, 1, w1.length, 1, w2.length, 8, arg.length, 1,
      w3.length, 1, body.length, w4.length, 8] : List Nat).sum =
      (mkG1 head sig w1 w2 arg w3).length + body.length + (w4 ++ defaultLit).length := by
    simp [mkG1, switchToksLen, defaultLitLen]
    omega
  have hspl := subRe_splice (patToks head) 11 1 (canonChunks s) n pre
    (mkG1 head sig w1 w2 arg w3) body (w4 ++ defaultLit) tail _ hfm h1s h2s h3s hsums
  rw [expand_canonical] at hspl
  rw [hspl]
  simp [List.append_assoc]

/-- Lemma `subRe_noOccur` phrased on `patToks`. -/
theorem subRe_noOccur_pat (head : List Char) (k1 kmid : Nat) (chunks : List TChunk)
    (n : Nat) (cs : List Char) (hne : ¬ head = []) (h : NoOccurB head cs) :
    subRe (patToks head) k1 kmid chunks n cs = cs :=
  subRe_noOccur head patTail k1 kmid chunks n cs hne h

/-! ### A full run on a canonical target file -/

/-- A full run of the script on a file of shape
`pre ++ forward-region ++ mid ++ reverse-region ++ post` (with the head
literal of each pattern occurring only at its region): the first write holds
the forward-patched text, the second write replaces the reverse body too,
and everything outside the two bodies is preserved verbatim. -/
theorem run_two_regions (tbl : List SyntaxEntry)
    (pre mid post sigf w1 w2 argf w3 bodyf w4 sigr u1 u2 argr u3 bodyr u4 : List Char)
    (hsigf1 : ∀ c ∈ sigf, isDotNoNL c = true) (hsigf2 : ∀ c ∈ sigf, isNotRParen c = true)
    (hw1 : ∀ c ∈ w1, isWs c = true) (hw2 : ∀ c ∈ w2, isWs c = true)
    (hargf : ∀ c ∈ argf, isNotRParen c = true) (hw3 : ∀ c ∈ w3, isWs c = true)
    (hbodyf : ∀ c ∈ bodyf, isNotRBrace c = true) (hw4 : ∀ c ∈ w4, isWs c = true)
    (hearlyf : ∀ k, k < bodyf.length →
      ¬ (defaultLit.isPrefixOf ((List.drop k (bodyf ++ w4 ++ defaultLit ++
        (mid ++ (mkRegion headRev sigr u1 u2 argr u3 bodyr u4 ++ post)))).dropWhile isWs) = true))
    (hsigr1 : ∀ c ∈ sigr, isDotNoNL c = true) (hsigr2 : ∀ c ∈ sigr, isNotRParen c = true)
    (hu1 : ∀ c ∈ u1, isWs c = true) (hu2 : ∀ c ∈ u2, isWs c = true)
    (hargr : ∀ c ∈ argr, isNotRParen c = true) (hu3 : ∀ c ∈ u3, isWs c = true)
    (hbodyr : ∀ c ∈ bodyr, isNotRBrace c = true) (hu4 : ∀ c ∈ u4, isWs c = true)
    (hearlyr : ∀ k, k < bodyr.length →
      ¬ (defaultLit.isPrefixOf
        ((List.drop k (bodyr ++ u4 ++ defaultLit ++ post)).dropWhile isWs) = true))
    (hpref : ∀ i, i < pre.length → ¬ (headFwd.isPrefixOf (List.drop i
      (pre ++ (mkRegion headFwd sigf w1 w2 argf w3 bodyf w4 ++
        (mid ++ (mkRegion headRev sigr u1 u2 argr u3 bodyr u4 ++ post))))) = true))
    (hnof : NoOccurB headFwd (mid ++ (mkRegion headRev sigr u1 u2 argr u3 bodyr u4 ++ post)))
    (hprer : ∀ i, i < (pre ++ mkG1 headFwd sigf w1 w2 argf w3 ++
        ('\n' :: fragmentsGdcm tbl) ++ (w4 ++ defaultLit) ++ mid).length →
      ¬ (headRev.isPrefixOf (List.drop i
        ((pre ++ mkG1 headFwd sigf w1 w2 argf w3 ++ ('\n' :: fragmentsGdcm tbl) ++
          (w4 ++ defaultLit) ++ mid) ++
          (mkRegion headRev sigr u1 u2 argr u3 bodyr u4 ++ post))) = true))
    (hnor : NoOccurB headRev post)
    (hnbF : ∀ c ∈ fragmentsGdcm tbl, ¬ c = '\\')
    (hnbR : ∀ c ∈ fragmentsOrthanc tbl, ¬ c = '\\') :
    GenerateTransferSyntaxes tbl
        (pre ++ (mkRegion headFwd sigf w1 w2 argf w3 bodyf w4 ++
          (mid ++ (mkRegion headRev sigr u1 u2 argr u3 bodyr u4 ++ post)))) =
      ⟨[pre ++ mkG1 headFwd sigf w1 w2 argf w3 ++ ('\n' :: fragmentsGdcm tbl) ++
          (w4 ++ defaultLit) ++ (mid ++ (mkRegion headRev sigr u1 u2 argr u3 bodyr u4 ++ post)),
        pre ++ mkG1 headFwd sigf w1 w2 argf w3 ++ ('\n' :: fragmentsGdcm tbl) ++
          (w4 ++ defaultLit) ++ mid ++ mkG1 headRev sigr u1 u2 argr u3 ++
          ('\n' :: fragmentsOrthanc tbl) ++ (u4 ++ defaultLit) ++ post],
       pre ++ mkG1 headFwd sigf w1 w2 argf w3 ++ ('\n' :: fragmentsGdcm tbl) ++
          (w4 ++ defaultLit) ++ mid ++ mkG1 headRev sigr u1 u2 argr u3 ++
          ('\n' :: fragmentsOrthanc tbl) ++ (u4 ++ defaultLit) ++ post⟩ := by
  have ha1 : subRe fwdToks 11 1 (canonChunks (fragmentsGdcm tbl)) 16
      (pre ++ (mkRegion headFwd sigf w1 w2 argf w3 bodyf w4 ++
        (mid ++ (mkRegion headRev sigr u1 u2 argr u3 bodyr u4 ++ post)))) =
      pre ++ (mkG1 headFwd sigf w1 w2 argf w3 ++ (('\n' :: fragmentsGdcm tbl) ++
        ((w4 ++ defaultLit) ++
          (mid ++ (mkRegion headRev sigr u1 u2 argr u3 bodyr u4 ++ post))))) := by
    have hstep := subRe_region_step headFwd sigf w1 w2 argf w3 bodyf w4
      (mid ++ (mkRegion headRev sigr u1 u2 argr u3 bodyr u4 ++ post)) pre
      (fragmentsGdcm tbl) 15 hsigf1 hsigf2 hw1 hw2 hargf hw3 hbodyf hw4 hearlyf hpref
    rw [subRe_noOccur_pat headFwd 11 1 (canonChunks (fragmentsGdcm tbl)) 15
      (mid ++ (mkRegion headRev sigr u1 u2 argr u3 bodyr u4 ++ post)) (by decide) hnof] at hstep
    exact hstep
  have hshape2 : pre ++ (mkG1 headFwd sigf w1 w2 argf w3 ++ (('\n' :: fragmentsGdcm tbl) ++
      ((w4 ++ defaultLit) ++
        (mid ++ (mkRegion headRev sigr u1 u2 argr u3 bodyr u4 ++ post))))) =
      (pre ++ mkG1 headFwd sigf w1 w2 argf w3 ++ ('\n' :: fragmentsGdcm tbl) ++
        (w4 ++ defaultLit) ++ mid) ++
        (mkRegion headRev sigr u1 u2 argr u3 bodyr u4 ++ post) := by
    simp [List.append_assoc]
  have ha2 : subRe revToks 11 1 (canonChunks (fragmentsOrthanc tbl)) 16
      (pre ++ (mkG1 headFwd sigf w1 w2 argf w3 ++ (('\n' :: fragmentsGdcm tbl) ++
        ((w4 ++ defaultLit) ++
          (mid ++ (mkRegion headRev sigr u1 u2 argr u3 bodyr u4 ++ post)))))) =
      (pre ++ mkG1 headFwd sigf w1 w2 argf w3 ++ ('\n' :: fragmentsGdcm tbl) ++
        (w4 ++ defaultLit) ++ mid) ++
        (mkG1 headRev sigr u1 u2 argr u3 ++ (('\n' :: fragmentsOrthanc tbl) ++
          ((u4 ++ defaultLit) ++ post))) := by
    rw [hshape2]
    have hstep := subRe_region_step headRev sigr u1 u2 argr u3 bodyr u4 post
      (pre ++ mkG1 headFwd sigf w1 w2 argf w3 ++ ('\n' :: fragmentsGdcm tbl) ++
        (w4 ++ defaultLit) ++ mid)
      (fragmentsOrthanc tbl) 15 hsigr1 hsigr2 hu1 hu2 hargr hu3 hbodyr hu4 hearlyr hprer
    rw [subRe_noOccur_pat headRev 11 1 (canonChunks (fragmentsOrthanc tbl)) 15 post
      (by decide) hnor] at hstep
    exact hstep
  rw [Gen_unfold tbl _ hnbF hnbR, ha1, ha2]
  simp [List.append_assoc]

/-- Final file content of `run_two_regions`. -/
theorem run_two_regions_final (tbl : List SyntaxEntry)
    (pre mid post sigf w1 w2 argf w3 bodyf w4 sigr u1 u2 argr u3 bodyr u4 : List Char)
    (hsigf1 : ∀ c ∈ sigf, isDotNoNL c = true) (hsigf2 : ∀ c ∈ sigf, isNotRParen c = true)
    (hw1 : ∀ c ∈ w1, isWs c = true) (hw2 : ∀ c ∈ w2, isWs c = true)
    (hargf : ∀ c ∈ argf, isNotRParen c = true) (hw3 : ∀ c ∈ w3, isWs c = true)
    (hbodyf : ∀ c ∈ bodyf, isNotRBrace c = true) (hw4 : ∀ c ∈ w4, isWs c = true)
    (hearlyf : ∀ k, k < bodyf.length →
      ¬ (defaultLit.isPrefixOf ((List.drop k (bodyf ++ w4 ++ defaultLit ++
        (mid ++ (mkRegion headRev sigr u1 u2 argr u3 bodyr u4 ++ post)))).dropWhile isWs) = true))
    (hsigr1 : ∀ c ∈ sigr, isDotNoNL c = true) (hsigr2 : ∀ c ∈ sigr, isNotRParen c = true)
    (hu1 : ∀ c ∈ u1, isWs c = true) (hu2 : ∀ c ∈ u2, isWs c = true)
    (hargr : ∀ c ∈ argr, isNotRParen c = true) (hu3 : ∀ c ∈ u3, isWs c = true)
    (hbodyr : ∀ c ∈ bodyr, isNotRBrace c = true) (hu4 : ∀ c ∈ u4, isWs c = true)
    (hearlyr : ∀ k, k < bodyr.length →
      ¬ (defaultLit.isPrefixOf
        ((List.drop k (bodyr ++ u4 ++ defaultLit ++ post)).dropWhile isWs) = true))
    (hpref : ∀ i, i < pre.length → ¬ (headFwd.isPrefixOf (List.drop i
      (pre ++ (mkRegion headFwd sigf w1 w2 argf w3 bodyf w4 ++
        (mid ++ (mkRegion headRev sigr u1 u2 argr u3 bodyr u4 ++ post))))) = true))
    (hnof : NoOccurB headFwd (mid ++ (mkRegion headRev sigr u1 u2 argr u3 bodyr u4 ++ post)))
    (hprer : ∀ i, i < (pre ++ mkG1 headFwd sigf w1 w2 argf w3 ++
        ('\n' :: fragmentsGdcm tbl) ++ (w4 ++ defaultLit) ++ mid).length →
      ¬ (headRev.isPrefixOf (List.drop i
        ((pre ++ mkG1 headFwd sigf w1 w2 argf w3 ++ ('\n' :: fragmentsGdcm tbl) ++
          (w4 ++ defaultLit) ++ mid) ++
          (mkRegion headRev sigr u1 u2 argr u3 bodyr u4 ++ post))) = true))
    (hnor : NoOccurB headRev post)
    (hnbF : ∀ c ∈ fragmentsGdcm tbl, ¬ c = '\\')
    (hnbR : ∀ c ∈ fragmentsOrthanc tbl, ¬ c = '\\') :
    (GenerateTransferSyntaxes tbl
        (pre ++ (mkRegion headFwd sigf w1 w2 argf w3 bodyf w4 ++
          (mid ++ (mkRegion headRev sigr u1 u2 argr u3 bodyr u4 ++ post))))).final =
      pre ++ mkG1 headFwd sigf w1 w2 argf w3 ++ ('\n' :: fragmentsGdcm tbl) ++
        (w4 ++ defaultLit) ++ mid ++ mkG1 headRev sigr u1 u2 argr u3 ++
        ('\n' :: fragmentsOrthanc tbl) ++ (u4 ++ defaultLit) ++ post := by
  rw [run_two_regions tbl pre mid post sigf w1 w2 argf w3 bodyf w4 sigr u1 u2 argr u3 bodyr u4
    hsigf1 hsigf2 hw1 hw2 hargf hw3 hbodyf hw4 hearlyf hsigr1 hsigr2 hu1 hu2 hargr hu3 hbodyr
    hu4 hearlyr hpref hnof hprer hnor hnbF hnbR]

/-- The forward substitution alone on a file with TWO forward anchor
regions (`pre ++ region1 ++ mid ++ region2 ++ post`): because the script
passes re.DOTALL = 16 as the `count` argument of re.sub, the engine keeps
scanning after the first replacement and replaces the second region's body
as well. -/
theorem subFwd_two_regions (tbl : List SyntaxEntry)
    (pre mid post sig1 w1 w2 arg1 w3 body1 w4 sig2 x1 x2 arg2 x3 body2 x4 : List Char)
    (hsig11 : ∀ c ∈ sig1, isDotNoNL c = true) (hsig12 : ∀ c ∈ sig1, isNotRParen c = true)
    (hw1 : ∀ c ∈ w1, isWs c = true) (hw2 : ∀ c ∈ w2, isWs c = true)
    (harg1 : ∀ c ∈ arg1, isNotRParen c = true) (hw3 : ∀ c ∈ w3, isWs c = true)
    (hbody1 : ∀ c ∈ body1, isNotRBrace c = true) (hw4 : ∀ c ∈ w4, isWs c = true)
    (hearly1 : ∀ k, k < body1.length →
      ¬ (defaultLit.isPrefixOf ((List.drop k (body1 ++ w4 ++ defaultLit ++
        (mid ++ (mkRegion headFwd sig2 x1 x2 arg2 x3 body2 x4 ++ post)))).dropWhile isWs) = true))
    (hsig21 : ∀ c ∈ sig2, isDotNoNL c = true) (hsig22 : ∀ c ∈ sig2, isNotRParen c = true)
    (hx1 : ∀ c ∈ x1, isWs c = true) (hx2 : ∀ c ∈ x2, isWs c = true)
    (harg2 : ∀ c ∈ arg2, isNotRParen c = true) (hx3 : ∀ c ∈ x3, isWs c = true)
    (hbody2 : ∀ c ∈ body2, isNotRBrace c = true) (hx4 : ∀ c ∈ x4, isWs c = true)
    (hearly2 : ∀ k, k < body2.length →
      ¬ (defaultLit.isPrefixOf
        ((List.drop k (body2 ++ x4 ++ defaultLit ++ post)).dropWhile isWs) = true))
    (hpre1 : ∀ i, i < pre.length → ¬ (headFwd.isPrefixOf (List.drop i
      (pre ++ (mkRegion headFwd sig1 w1 w2 arg1 w3 body1 w4 ++
        (mid ++ (mkRegion headFwd sig2 x1 x2 arg2 x3 body2 x4 ++ post))))) = true))
    (hmid : ∀ i, i < mid.length → ¬ (headFwd.isPrefixOf (List.drop i
      (mid ++ (mkRegion headFwd sig2 x1 x2 arg2 x3 body2 x4 ++ post))) = true))
    (hnopost : NoOccurB headFwd post) :
    subRe fwdToks 11 1 (canonChunks (fragmentsGdcm tbl)) 16
        (pre ++ (mkRegion headFwd sig1 w1 w2 arg1 w3 body1 w4 ++
          (mid ++ (mkRegion headFwd sig2 x1 x2 arg2 x3 body2 x4 ++ post)))) =
      pre ++ (mkG1 headFwd sig1 w1 w2 arg1 w3 ++ (('\n' :: fragmentsGdcm tbl) ++
        ((w4 ++ defaultLit) ++ (mid ++ (mkG1 headFwd sig2 x1 x2 arg2 x3 ++
          (('\n' :: fragmentsGdcm tbl) ++ ((x4 ++ defaultLit) ++ post))))))) := by
  have hstep2 : subRe (patToks headFwd) 11 1 (canonChunks (fragmentsGdcm tbl)) 15
      (mid ++ (mkRegion headFwd sig2 x1 x2 arg2 x3 body2 x4 ++ post)) =
      mid ++ (mkG1 headFwd sig2 x1 x2 arg2 x3 ++ (('\n' :: fragmentsGdcm tbl) ++
        ((x4 ++ defaultLit) ++
          subRe (patToks headFwd) 11 1 (canonChunks (fragmentsGdcm tbl)) 14 post))) :=
    subRe_region_step headFwd sig2 x1 x2 arg2 x3 body2 x4 post mid
      (fragmentsGdcm tbl) 14 hsig21 hsig22 hx1 hx2 harg2 hx3 hbody2 hx4 hearly2 hmid
  rw [subRe_noOccur_pat headFwd 11 1 (canonChunks (fragmentsGdcm tbl)) 14 post
    (by decide) hnopost] at hstep2
  have hstep1 := subRe_region_step headFwd sig1 w1 w2 arg1 w3 body1 w4
    (mid ++ (mkRegion headFwd sig2 x1 x2 arg2 x3 body2 x4 ++ post)) pre
    (fragmentsGdcm tbl) 15 hsig11 hsig12 hw1 hw2 harg1 hw3 hbody1 hw4 hearly1 hpre1
  rw [hstep2] at hstep1
  exact hstep1

/-! ### Fragment derivation lemmas -/

theorem subRe_noMatch (T : List Tok) (k1 kmid : Nat) (chunks : List TChunk) (n : Nat)
    (cs : List Char) (h : findMatch T cs = none) : subRe T k1 kmid chunks n cs = cs := by
  cases n with
  | zero => rfl
  | succ n => rw [subRe, h]

theorem joinSep_prefix (sep : List Char) (xs : List (List Char)) (x : List Char)
    (ys : List (List Char)) :
    ∃ A, joinSep sep (xs ++ x :: ys) = A ++ joinSep sep (x :: ys) := by
  induction xs with
  | nil => exact ⟨[], by simp⟩
  | cons z zs ih =>
    obtain ⟨A, hA⟩ := ih
    refine ⟨z ++ sep ++ A, ?_⟩
    have hcons : ∃ h t, zs ++ x :: ys = h :: t := by
      cases zs with
      | nil => exact ⟨x, ys, rfl⟩
      | cons a as => exact ⟨a, as ++ x :: ys, rfl⟩
    obtain ⟨h, t, ht⟩ := hcons
    rw [List.cons_append, ht, joinSep, ← ht, hA]
    simp [List.append_assoc]

theorem joinSep_decomp (sep : List Char) (xs : List (List Char)) (x : List Char)
    (ys : List (List Char)) :
    ∃ A B, joinSep sep (xs ++ x :: ys) = A ++ x ++ B := by
  obtain ⟨A, hA⟩ := joinSep_prefix sep xs x ys
  cases ys with
  | nil => exact ⟨A, [], by rw [hA]; simp [joinSep]⟩
  | cons y ys' =>
    refine ⟨A, sep ++ joinSep sep (y :: ys'), ?_⟩
    rw [hA, joinSep]
    simp [List.append_assoc]

theorem joinSep_decomp_two (sep : List Char) (L1 L2 L3 : List (List Char))
    (fa fb : List Char) :
    ∃ X Y Z, joinSep sep (L1 ++ fa :: (L2 ++ fb :: L3)) = X ++ fa ++ Y ++ fb ++ Z := by
  obtain ⟨A, hA⟩ := joinSep_prefix sep L1 fa (L2 ++ fb :: L3)
  have hcons : ∃ h t, L2 ++ fb :: L3 = h :: t := by
    cases L2 with
    | nil => exact ⟨fb, L3, rfl⟩
    | cons a as => exact ⟨a, as ++ fb :: L3, rfl⟩
  obtain ⟨h, t, ht⟩ := hcons
  obtain ⟨A2, B2, hAB⟩ := joinSep_decomp sep L2 fb L3
  refine ⟨A, sep ++ A2, B2, ?_⟩
  rw [hA, ht, joinSep, ← ht, hAB]
  simp [List.append_assoc]

/-! ### Claim theorems -/

/-- Claim C5: an entry whose 'GDCM' key is absent contributes no case clause
to either patch fragment: deleting such an entry from anywhere in the table
leaves both the forward and the reverse fragment block byte-identical, so
both fragments are derived exclusively from the entries that have the key. -/
theorem filter_drops_entry_without_gdcm (t1 t2 : List SyntaxEntry) (e : SyntaxEntry)
    (he : hasGDCM e = false) :
    fragmentsGdcm (t1 ++ e :: t2) = fragmentsGdcm (t1 ++ t2) ∧
    fragmentsOrthanc (t1 ++ e :: t2) = fragmentsOrthanc (t1 ++ t2) := by
  constructor
  · simp [fragmentsGdcm, List.filter_append, List.filter_cons, he]
  · simp [fragmentsOrthanc, List.filter_append, List.filter_cons, he]

theorem filter_drops_entry_without_gdcm_witness :
    fragmentsGdcm ([⟨("A".toList), some ("X".toList)⟩] ++
        (⟨("B".toList), none⟩ : SyntaxEntry) :: [⟨("C".toList), some ("Y".toList)⟩]) =
      fragmentsGdcm ([⟨("A".toList), some ("X".toList)⟩] ++
        [⟨("C".toList), some ("Y".toList)⟩]) ∧
    fragmentsOrthanc ([⟨("A".toList), some ("X".toList)⟩] ++
        (⟨("B".toList), none⟩ : SyntaxEntry) :: [⟨("C".toList), some ("Y".toList)⟩]) =
      fragmentsOrthanc ([⟨("A".toList), some ("X".toList)⟩] ++
        [⟨("C".toList), some ("Y".toList)⟩]) :=
  filter_drops_entry_without_gdcm [⟨("A".toList), some ("X".toList)⟩]
    [⟨("C".toList), some ("Y".toList)⟩] ⟨("B".toList), none⟩ (by decide)

/-- Claim C6: case clauses appear in table order: if entry `a` precedes
entry `b` in the table and both carry the 'GDCM' key, then `a`'s formatted
clause precedes `b`'s clause in the forward fragment block, and likewise in
the reverse fragment block (no sorting or reordering). -/
theorem fragments_preserve_table_order (t1 t2 t3 : List SyntaxEntry) (a b : SyntaxEntry)
    (ha : hasGDCM a = true) (hb : hasGDCM b = true) :
    (∃ X Y Z, fragmentsGdcm (t1 ++ a :: (t2 ++ b :: t3)) =
      X ++ FormatGdcm a ++ Y ++ FormatGdcm b ++ Z) ∧
    (∃ X Y Z, fragmentsOrthanc (t1 ++ a :: (t2 ++ b :: t3)) =
      X ++ FormatOrthanc a ++ Y ++ FormatOrthanc b ++ Z) := by
  constructor
  · have hfil : (t1 ++ a :: (t2 ++ b :: t3)).filter hasGDCM =
        t1.filter hasGDCM ++ a :: (t2.filter hasGDCM ++ b :: t3.filter hasGDCM) := by
      simp [List.filter_append, List.filter_cons, ha, hb]
    have hmap : ((t1 ++ a :: (t2 ++ b :: t3)).filter hasGDCM).map FormatGdcm =
        (t1.filter hasGDCM).map FormatGdcm ++ FormatGdcm a ::
          ((t2.filter hasGDCM).map FormatGdcm ++ FormatGdcm b ::
            (t3.filter hasGDCM).map FormatGdcm) := by
      rw [hfil]; simp
    unfold fragmentsGdcm
    rw [hmap]
    exact joinSep_decomp_two ("\n\n".toList) _ _ _ _ _
  · have hfil : (t1 ++ a :: (t2 ++ b :: t3)).filter hasGDCM =
        t1.filter hasGDCM ++ a :: (t2.filter hasGDCM ++ b :: t3.filter hasGDCM) := by
      simp [List.filter_append, List.filter_cons, ha, hb]
    have hmap : ((t1 ++ a :: (t2 ++ b :: t3)).filter hasGDCM).map FormatOrthanc =
        (t1.filter hasGDCM).map FormatOrthanc ++ FormatOrthanc a ::
          ((t2.filter hasGDCM).map FormatOrthanc ++ FormatOrthanc b ::
            (t3.filter hasGDCM).map FormatOrthanc) := by
      rw [hfil]; simp
    unfold fragmentsOrthanc
    rw [hmap]
    exact joinSep_decomp_two ("\n\n".toList) _ _ _ _ _

theorem fragments_preserve_table_order_witness :
    (∃ X Y Z, fragmentsGdcm ([⟨("P".toList), none⟩] ++
        (⟨("A".toList), some ("X".toList)⟩ : SyntaxEntry) ::
          ([⟨("Q".toList), none⟩] ++ (⟨("B".toList), some ("Y".toList)⟩ : SyntaxEntry) :: [])) =
      X ++ FormatGdcm ⟨("A".toList), some ("X".toList)⟩ ++ Y ++
        FormatGdcm ⟨("B".toList), some ("Y".toList)⟩ ++ Z) ∧
    (∃ X Y Z, fragmentsOrthanc ([⟨("P".toList), none⟩] ++
        (⟨("A".toList), some ("X".toList)⟩ : SyntaxEntry) ::
          ([⟨("Q".toList), none⟩] ++ (⟨("B".toList), some ("Y".toList)⟩ : SyntaxEntry) :: [])) =
      X ++ FormatOrthanc ⟨("A".toList), some ("X".toList)⟩ ++ Y ++
        FormatOrthanc ⟨("B".toList), some ("Y".toList)⟩ ++ Z) :=
  fragments_preserve_table_order [⟨("P".toList), none⟩] [⟨("Q".toList), none⟩] []
    ⟨("A".toList), some ("X".toList)⟩ ⟨("B".toList), some ("Y".toList)⟩
    (by decide) (by decide)

/-- Claim C9: for a fixed rendering engine (the template is baked into it)
and a fixed entry sequence, the Template Generator's output is byte-identical
across runs whatever the previous output-file content was, and rerunning it
on its own output changes nothing: the output file is fully regenerated on
every run. -/
theorem template_generator_deterministic :
    ∀ (eng : TemplateEngine) (syntaxes : List SyntaxEntry) (p1 p2 : List Char),
      RunTemplateGenerator eng syntaxes p1 = RunTemplateGenerator eng syntaxes p2 ∧
      RunTemplateGenerator eng syntaxes (RunTemplateGenerator eng syntaxes p1) =
        RunTemplateGenerator eng syntaxes p1 :=
  fun _ _ _ _ => ⟨rfl, rfl⟩

/-- Claim C10: when an anchor pattern has no match in the target text, the
corresponding re.sub call returns the text unchanged and the script
completes normally, rewriting the file with byte-identical content — no
exception of any kind is raised (the script has no PatternNotFoundError). -/
theorem missing_anchor_silent_rewrite :
    (∀ (repl : List TChunk) (n : Nat) (cs : List Char), findMatch fwdToks cs = none →
      subRe fwdToks 11 1 repl n cs = cs) ∧
    (∀ (repl : List TChunk) (n : Nat) (cs : List Char), findMatch revToks cs = none →
      subRe revToks 11 1 repl n cs = cs) ∧
    (∀ (tbl : List SyntaxEntry) (file : List Char),
      (∀ c ∈ fragmentsGdcm tbl, ¬ c = '\\') → (∀ c ∈ fragmentsOrthanc tbl, ¬ c = '\\') →
      findMatch fwdToks file = none → findMatch revToks file = none →
      GenerateTransferSyntaxes tbl file = ⟨[file, file], file⟩) := by
  refine ⟨fun repl n cs h => subRe_noMatch _ _ _ _ _ _ h,
          fun repl n cs h => subRe_noMatch _ _ _ _ _ _ h, ?_⟩
  intro tbl file hnbF hnbR hf hr
  rw [Gen_unfold tbl file hnbF hnbR]
  rw [subRe_noMatch _ _ _ _ _ _ hf, subRe_noMatch _ _ _ _ _ _ hr]

theorem missing_anchor_silent_rewrite_witness :
    GenerateTransferSyntaxes [⟨("A".toList), some ("X".toList)⟩]
        ("int f(int x)\n\x7b\n  return x;\n\x7d\n".toList) =
      ⟨[("int f(int x)\n\x7b\n  return x;\n\x7d\n".toList),
        ("int f(int x)\n\x7b\n  return x;\n\x7d\n".toList)],
       ("int f(int x)\n\x7b\n  return x;\n\x7d\n".toList)⟩ :=
  missing_anchor_silent_rewrite.2.2 [⟨("A".toList), some ("X".toList)⟩]
    ("int f(int x)\n\x7b\n  return x;\n\x7d\n".toList) (by decide) (by decide)
    (by decide) (by decide)

/-- Claim C8: on a target text containing the two anchor regions (canonical
decomposition, with each pattern's head literal occurring only at its own
region) and for an entry table whose derived fragment blocks contain no
backslash (the replacement template r'\1\n%s\2' % s is escape-processed as
a whole, fragment included, so a backslash inside a fragment would be
re-interpreted as a group reference or escape instead of spliced verbatim),
the script's final output differs from the input only between the
two anchor pairs: the text before each region, both group-1 anchor texts
(function header through switch-opening brace), the whitespace plus
'default:' end anchors, the text between the regions and the text after
them are all byte-identical to the input — only the two bodies change. -/
theorem patch_output_frame (tbl : List SyntaxEntry)
    (pre mid post sigf w1 w2 argf w3 bodyf w4 sigr u1 u2 argr u3 bodyr u4 : List Char)
    (hsigf1 : ∀ c ∈ sigf, isDotNoNL c = true) (hsigf2 : ∀ c ∈ sigf, isNotRParen c = true)
    (hw1 : ∀ c ∈ w1, isWs c = true) (hw2 : ∀ c ∈ w2, isWs c = true)
    (hargf : ∀ c ∈ argf, isNotRParen c = true) (hw3 : ∀ c ∈ w3, isWs c = true)
    (hbodyf : ∀ c ∈ bodyf, isNotRBrace c = true) (hw4 : ∀ c ∈ w4, isWs c = true)
    (hearlyf : ∀ k, k < bodyf.length →
      ¬ (defaultLit.isPrefixOf ((List.drop k (bodyf ++ w4 ++ defaultLit ++
        (mid ++ (mkRegion headRev sigr u1 u2 argr u3 bodyr u4 ++ post)))).dropWhile isWs) = true))
    (hsigr1 : ∀ c ∈ sigr, isDotNoNL c = true) (hsigr2 : ∀ c ∈ sigr, isNotRParen c = true)
    (hu1 : ∀ c ∈ u1, isWs c = true) (hu2 : ∀ c ∈ u2, isWs c = true)
    (hargr : ∀ c ∈ argr, isNotRParen c = true) (hu3 : ∀ c ∈ u3, isWs c = true)
    (hbodyr : ∀ c ∈ bodyr, isNotRBrace c = true) (hu4 : ∀ c ∈ u4, isWs c = true)
    (hearlyr : ∀ k, k < bodyr.length →
      ¬ (defaultLit.isPrefixOf
        ((List.drop k (bodyr ++ u4 ++ defaultLit ++ post)).dropWhile isWs) = true))
    (hpref : ∀ i, i < pre.length → ¬ (headFwd.isPrefixOf (List.drop i
      (pre ++ (mkRegion headFwd sigf w1 w2 argf w3 bodyf w4 ++
        (mid ++ (mkRegion headRev sigr u1 u2 argr u3 bodyr u4 ++ post))))) = true))
    (hnof : NoOccurB headFwd (mid ++ (mkRegion headRev sigr u1 u2 argr u3 bodyr u4 ++ post)))
    (hprer : ∀ i, i < (pre ++ mkG1 headFwd sigf w1 w2 argf w3 ++
        ('\n' :: fragmentsGdcm tbl) ++ (w4 ++ defaultLit) ++ mid).length →
      ¬ (headRev.isPrefixOf (List.drop i
        ((pre ++ mkG1 headFwd sigf w1 w2 argf w3 ++ ('\n' :: fragmentsGdcm tbl) ++
          (w4 ++ defaultLit) ++ mid) ++
          (mkRegion headRev sigr u1 u2 argr u3 bodyr u4 ++ post))) = true))
    (hnor : NoOccurB headRev post)
    (hnbF : ∀ c ∈ fragmentsGdcm tbl, ¬ c = '\\')
    (hnbR : ∀ c ∈ fragmentsOrthanc tbl, ¬ c = '\\') :
    (GenerateTransferSyntaxes tbl
        (pre ++ (mkRegion headFwd sigf w1 w2 argf w3 bodyf w4 ++
          (mid ++ (mkRegion headRev sigr u1 u2 argr u3 bodyr u4 ++ post))))).final =
      pre ++ mkG1 headFwd sigf w1 w2 argf w3 ++ ('\n' :: fragmentsGdcm tbl) ++
        (w4 ++ defaultLit) ++ mid ++ mkG1 headRev sigr u1 u2 argr u3 ++
        ('\n' :: fragmentsOrthanc tbl) ++ (u4 ++ defaultLit) ++ post :=
  run_two_regions_final tbl pre mid post sigf w1 w2 argf w3 bodyf w4 sigr u1 u2 argr u3 bodyr u4
    hsigf1 hsigf2 hw1 hw2 hargf hw3 hbodyf hw4 hearlyf hsigr1 hsigr2 hu1 hu2 hargr hu3 hbodyr
    hu4 hearlyr hpref hnof hprer hnor hnbF hnbR

/-- Claim C3 (amended): running the Patch Generator twice yields the same
file as running it once, for every entry table and canonical two-region
target text such that the derived fragment blocks contain no backslash (the
replacement template r'\1\n%s\2' % s is escape-processed as a whole, so a
backslash inside a fragment would expand as a group reference or escape
instead of being spliced verbatim) and no closing brace, and do not create
an earlier whitespace-then-'default:' match inside the patched bodies, and
the two head literals still occur only at their regions in the once-patched
file.  (As stated for EVERY table the claim is false: an entry whose
'Value' ends in "default" makes the inserted clause contain "default:", the
second run's lazy body match stops there, and the file keeps growing — see
the counterexample.) -/
theorem patch_idempotent (tbl : List SyntaxEntry)
    (pre mid post sigf w1 w2 argf w3 bodyf w4 sigr u1 u2 argr u3 bodyr u4 : List Char)
    (hsigf1 : ∀ c ∈ sigf, isDotNoNL c = true) (hsigf2 : ∀ c ∈ sigf, isNotRParen c = true)
    (hw1 : ∀ c ∈ w1, isWs c = true) (hw2 : ∀ c ∈ w2, isWs c = true)
    (hargf : ∀ c ∈ argf, isNotRParen c = true) (hw3 : ∀ c ∈ w3, isWs c = true)
    (hbodyf : ∀ c ∈ bodyf, isNotRBrace c = true) (hw4 : ∀ c ∈ w4, isWs c = true)
    (hearlyf : ∀ k, k < bodyf.length →
      ¬ (defaultLit.isPrefixOf ((List.drop k (bodyf ++ w4 ++ defaultLit ++
        (mid ++ (mkRegion headRev sigr u1 u2 argr u3 bodyr u4 ++ post)))).dropWhile isWs) = true))
    (hsigr1 : ∀ c ∈ sigr, isDotNoNL c = true) (hsigr2 : ∀ c ∈ sigr, isNotRParen c = true)
    (hu1 : ∀ c ∈ u1, isWs c = true) (hu2 : ∀ c ∈ u2, isWs c = true)
    (hargr : ∀ c ∈ argr, isNotRParen c = true) (hu3 : ∀ c ∈ u3, isWs c = true)
    (hbodyr : ∀ c ∈ bodyr, isNotRBrace c = true) (hu4 : ∀ c ∈ u4, isWs c = true)
    (hearlyr : ∀ k, k < bodyr.length →
      ¬ (defaultLit.isPrefixOf
        ((List.drop k (bodyr ++ u4 ++ defaultLit ++ post)).dropWhile isWs) = true))
    (hpref : ∀ i, i < pre.length → ¬ (headFwd.isPrefixOf (List.drop i
      (pre ++ (mkRegion headFwd sigf w1 w2 argf w3 bodyf w4 ++
        (mid ++ (mkRegion headRev sigr u1 u2 argr u3 bodyr u4 ++ post))))) = true))
    (hnof : NoOccurB headFwd (mid ++ (mkRegion headRev sigr u1 u2 argr u3 bodyr u4 ++ post)))
    (hprer : ∀ i, i < (pre ++ mkG1 headFwd sigf w1 w2 argf w3 ++
        ('\n' :: fragmentsGdcm tbl) ++ (w4 ++ defaultLit) ++ mid).length →
      ¬ (headRev.isPrefixOf (List.drop i
        ((pre ++ mkG1 headFwd sigf w1 w2 argf w3 ++ ('\n' :: fragmentsGdcm tbl) ++
          (w4 ++ defaultLit) ++ mid) ++
          (mkRegion headRev sigr u1 u2 argr u3 bodyr u4 ++ post))) = true))
    (hnor : NoOccurB headRev post)
    (hfragF : ∀ c ∈ fragmentsGdcm tbl, isNotRBrace c = true)
    (hfragR : ∀ c ∈ fragmentsOrthanc tbl, isNotRBrace c = true)
    (hearlyf2 : ∀ k, k < ('\n' :: fragmentsGdcm tbl).length →
      ¬ (defaultLit.isPrefixOf ((List.drop k (('\n' :: fragmentsGdcm tbl) ++ w4 ++ defaultLit ++
        (mid ++ (mkRegion headRev sigr u1 u2 argr u3 ('\n' :: fragmentsOrthanc tbl) u4 ++
          post)))).dropWhile isWs) = true))
    (hearlyr2 : ∀ k, k < ('\n' :: fragmentsOrthanc tbl).length →
      ¬ (defaultLit.isPrefixOf ((List.drop k (('\n' :: fragmentsOrthanc tbl) ++ u4 ++
        defaultLit ++ post)).dropWhile isWs) = true))
    (hpref2 : ∀ i, i < pre.length → ¬ (headFwd.isPrefixOf (List.drop i
      (pre ++ (mkRegion headFwd sigf w1 w2 argf w3 ('\n' :: fragmentsGdcm tbl) w4 ++
        (mid ++ (mkRegion headRev sigr u1 u2 argr u3 ('\n' :: fragmentsOrthanc tbl) u4 ++
          post))))) = true))
    (hnof2 : NoOccurB headFwd
      (mid ++ (mkRegion headRev sigr u1 u2 argr u3 ('\n' :: fragmentsOrthanc tbl) u4 ++ post)))
    (hprer2 : ∀ i, i < (pre ++ mkG1 headFwd sigf w1 w2 argf w3 ++
        ('\n' :: fragmentsGdcm tbl) ++ (w4 ++ defaultLit) ++ mid).length →
      ¬ (headRev.isPrefixOf (List.drop i
        ((pre ++ mkG1 headFwd sigf w1 w2 argf w3 ++ ('\n' :: fragmentsGdcm tbl) ++
          (w4 ++ defaultLit) ++ mid) ++
          (mkRegion headRev sigr u1 u2 argr u3 ('\n' :: fragmentsOrthanc tbl) u4 ++ post))) =
          true))
    (hnbF : ∀ c ∈ fragmentsGdcm tbl, ¬ c = '\\')
    (hnbR : ∀ c ∈ fragmentsOrthanc tbl, ¬ c = '\\') :
    (GenerateTransferSyntaxes tbl ((GenerateTransferSyntaxes tbl
        (pre ++ (mkRegion headFwd sigf w1 w2 argf w3 bodyf w4 ++
          (mid ++ (mkRegion headRev sigr u1 u2 argr u3 bodyr u4 ++ post))))).final)).final =
      (GenerateTransferSyntaxes tbl
        (pre ++ (mkRegion headFwd sigf w1 w2 argf w3 bodyf w4 ++
          (mid ++ (mkRegion headRev sigr u1 u2 argr u3 bodyr u4 ++ post))))).final := by
  have hbodyf2 : ∀ c ∈ ('\n' :: fragmentsGdcm tbl), isNotRBrace c = true := by
    intro c hc
    rcases List.mem_cons.mp hc with h | h
    · subst h; decide
    · exact hfragF c h
  have hbodyr2 : ∀ c ∈ ('\n' :: fragmentsOrthanc tbl), isNotRBrace c = true := by
    intro c hc
    rcases List.mem_cons.mp hc with h | h
    · subst h; decide
    · exact hfragR c h
  rw [run_two_regions_final tbl pre mid post sigf w1 w2 argf w3 bodyf w4 sigr u1 u2 argr u3
    bodyr u4 hsigf1 hsigf2 hw1 hw2 hargf hw3 hbodyf hw4 hearlyf hsigr1 hsigr2 hu1 hu2 hargr
    hu3 hbodyr hu4 hearlyr hpref hnof hprer hnor hnbF hnbR]
  have hshape : pre ++ mkG1 headFwd sigf w1 w2 argf w3 ++ ('\n' :: fragmentsGdcm tbl) ++
      (w4 ++ defaultLit) ++ mid ++ mkG1 headRev sigr u1 u2 argr u3 ++
      ('\n' :: fragmentsOrthanc tbl) ++ (u4 ++ defaultLit) ++ post =
      pre ++ (mkRegion headFwd sigf w1 w2 argf w3 ('\n' :: fragmentsGdcm tbl) w4 ++
        (mid ++ (mkRegion headRev sigr u1 u2 argr u3 ('\n' :: fragmentsOrthanc tbl) u4 ++
          post))) := by
    simp [mkRegion, List.append_assoc]
  rw [hshape]
  rw [run_two_regions_final tbl pre mid post sigf w1 w2 argf w3 ('\n' :: fragmentsGdcm tbl) w4
    sigr u1 u2 argr u3 ('\n' :: fragmentsOrthanc tbl) u4 hsigf1 hsigf2 hw1 hw2 hargf hw3
    hbodyf2 hw4 hearlyf2 hsigr1 hsigr2 hu1 hu2 hargr hu3 hbodyr2 hu4 hearlyr2 hpref2 hnof2
    hprer2 hnor hnbF hnbR]
  simp [mkRegion, List.append_assoc]

/-- Claim C4 (amended): because re.DOTALL (= 16) is passed to re.sub in the
`count` position, the substitution replaces the bodies of the first up to 16
matching regions, not only the first one: on a target text with TWO forward
anchor regions, both bodies are replaced (the reverse pattern, absent from
the text, leaves it unchanged).  Stated for tables whose derived fragment
blocks contain no backslash, so that the escape-processed replacement
template inserts the fragment verbatim at each match. -/
theorem patch_replaces_later_regions_too (tbl : List SyntaxEntry)
    (pre mid post sig1 w1 w2 arg1 w3 body1 w4 sig2 x1 x2 arg2 x3 body2 x4 : List Char)
    (hsig11 : ∀ c ∈ sig1, isDotNoNL c = true) (hsig12 : ∀ c ∈ sig1, isNotRParen c = true)
    (hw1 : ∀ c ∈ w1, isWs c = true) (hw2 : ∀ c ∈ w2, isWs c = true)
    (harg1 : ∀ c ∈ arg1, isNotRParen c = true) (hw3 : ∀ c ∈ w3, isWs c = true)
    (hbody1 : ∀ c ∈ body1, isNotRBrace c = true) (hw4 : ∀ c ∈ w4, isWs c = true)
    (hearly1 : ∀ k, k < body1.length →
      ¬ (defaultLit.isPrefixOf ((List.drop k (body1 ++ w4 ++ defaultLit ++
        (mid ++ (mkRegion headFwd sig2 x1 x2 arg2 x3 body2 x4 ++ post)))).dropWhile isWs) = true))
    (hsig21 : ∀ c ∈ sig2, isDotNoNL c = true) (hsig22 : ∀ c ∈ sig2, isNotRParen c = true)
    (hx1 : ∀ c ∈ x1, isWs c = true) (hx2 : ∀ c ∈ x2, isWs c = true)
    (harg2 : ∀ c ∈ arg2, isNotRParen c = true) (hx3 : ∀ c ∈ x3, isWs c = true)
    (hbody2 : ∀ c ∈ body2, isNotRBrace c = true) (hx4 : ∀ c ∈ x4, isWs c = true)
    (hearly2 : ∀ k, k < body2.length →
      ¬ (defaultLit.isPrefixOf
        ((List.drop k (body2 ++ x4 ++ defaultLit ++ post)).dropWhile isWs) = true))
    (hpre1 : ∀ i, i < pre.length → ¬ (headFwd.isPrefixOf (List.drop i
      (pre ++ (mkRegion headFwd sig1 w1 w2 arg1 w3 body1 w4 ++
        (mid ++ (mkRegion headFwd sig2 x1 x2 arg2 x3 body2 x4 ++ post))))) = true))
    (hmid : ∀ i, i < mid.length → ¬ (headFwd.isPrefixOf (List.drop i
      (mid ++ (mkRegion headFwd sig2 x1 x2 arg2 x3 body2 x4 ++ post))) = true))
    (hnopost : NoOccurB headFwd post)
    (hnorev : NoOccurB headRev
      (pre ++ (mkG1 headFwd sig1 w1 w2 arg1 w3 ++ (('\n' :: fragmentsGdcm tbl) ++
        ((w4 ++ defaultLit) ++ (mid ++ (mkG1 headFwd sig2 x1 x2 arg2 x3 ++
          (('\n' :: fragmentsGdcm tbl) ++ ((x4 ++ defaultLit) ++ post)))))))))
    (hnbF : ∀ c ∈ fragmentsGdcm tbl, ¬ c = '\\')
    (hnbR : ∀ c ∈ fragmentsOrthanc tbl, ¬ c = '\\') :
    (GenerateTransferSyntaxes tbl
        (pre ++ (mkRegion headFwd sig1 w1 w2 arg1 w3 body1 w4 ++
          (mid ++ (mkRegion headFwd sig2 x1 x2 arg2 x3 body2 x4 ++ post))))).final =
      pre ++ (mkG1 headFwd sig1 w1 w2 arg1 w3 ++ (('\n' :: fragmentsGdcm tbl) ++
        ((w4 ++ defaultLit) ++ (mid ++ (mkG1 headFwd sig2 x1 x2 arg2 x3 ++
          (('\n' :: fragmentsGdcm tbl) ++ ((x4 ++ defaultLit) ++ post))))))) := by
  rw [Gen_unfold tbl _ hnbF hnbR]
  show subRe revToks 11 1 (canonChunks (fragmentsOrthanc tbl)) 16
      (subRe fwdToks 11 1 (canonChunks (fragmentsGdcm tbl)) 16
        (pre ++ (mkRegion headFwd sig1 w1 w2 arg1 w3 body1 w4 ++
          (mid ++ (mkRegion headFwd sig2 x1 x2 arg2 x3 body2 x4 ++ post))))) = _
  rw [subFwd_two_regions tbl pre mid post sig1 w1 w2 arg1 w3 body1 w4 sig2 x1 x2 arg2 x3
    body2 x4 hsig11 hsig12 hw1 hw2 harg1 hw3 hbody1 hw4 hearly1 hsig21 hsig22 hx1 hx2 harg2
    hx3 hbody2 hx4 hearly2 hpre1 hmid hnopost]
  exact subRe_noOccur_pat headRev 11 1 (canonChunks (fragmentsOrthanc tbl)) 16 _
    (by decide) hnorev

/-- Claim C1: the spec requires that when the reverse anchor region cannot be
located the run fails with PatternNotFoundError and leaves the file
byte-identical to its pre-run content; the script instead completes without
raising anything and WRITES the forward-patched text (once after the forward
step and again after the no-op reverse step), so the intermediate
forward-patched state becomes the visible on-disk content.  This theorem
evaluates the script at such a failing input. -/
theorem missing_reverse_anchor_writes_forward_patch :
    GenerateTransferSyntaxes tblAX fileFwdOnly =
      ⟨[fileFwdOnlyPatched, fileFwdOnlyPatched], fileFwdOnlyPatched⟩ ∧
    ¬ fileFwdOnlyPatched = fileFwdOnly :=
  ⟨by decide, by decide⟩

/-- Claim C2: the spec requires a PatternNotFoundError when either anchor
pattern cannot be located; the script has no such error and completes the
run normally, rewriting the file with unchanged content (here: a target with
no anchor regions at all). -/
theorem missing_anchors_no_error :
    GenerateTransferSyntaxes tblAX fileNoAnchors =
      ⟨[fileNoAnchors, fileNoAnchors], fileNoAnchors⟩ := by
  decide

/-- Claim C3, counterexample: for the table whose Value is "default" and a
target file containing both anchor regions, running the Patch Generator
twice yields a file DIFFERENT from running it once (the inserted clause
text "...DicomTransferSyntax_default:" gives the second run's body match an
earlier 'default:' stop, so text keeps growing). -/
theorem patch_not_idempotent_for_value_default :
    ¬ (GenerateTransferSyntaxes tblDefault
        ((GenerateTransferSyntaxes tblDefault fileBothRegions).final)).final =
      (GenerateTransferSyntaxes tblDefault fileBothRegions).final := by
  decide

/-- Claim C4, counterexample: on a target text with two forward anchor
regions, the script replaces BOTH bodies (re.DOTALL = 16 is passed as
re.sub's count argument), so the output is not the claimed
only-first-replaced text. -/
theorem later_region_not_left_unchanged :
    (GenerateTransferSyntaxes tblAX fileTwoFwdRegions).final = fileTwoFwdBothPatched ∧
    ¬ fileTwoFwdBothPatched = fileTwoFwdOnlyFirstPatched :=
  ⟨by decide, by decide⟩

/-- Claim C7: on the two-entry table (A with external identifier X, B
without one) the forward fragment is exactly one case clause mapping A to X,
the reverse fragment is exactly one case clause mapping X back to A, entry B
contributes to neither, and patching a target with both anchor regions and
empty bodies splices exactly these two clauses. -/
theorem example_table_fragments :
    fragmentsGdcm tblC7 = ("      case Orthanc::DicomTransferSyntax_A:\n        return X;").toList ∧
    fragmentsOrthanc tblC7 = ("      case X:\n        return Orthanc::DicomTransferSyntax_A;").toList ∧
    (GenerateTransferSyntaxes tblC7 fileEmptyBodies).final = fileEmptyBodiesPatched :=
  ⟨by decide, by decide, by decide⟩

theorem patch_output_frame_witness :
    (GenerateTransferSyntaxes tblAX
        (("// header\n".toList) ++
          (mkRegion headFwd (" syntax".toList) ("\n  ".toList) ("\n    ".toList)
            ("syntax".toList) ("\n    ".toList) ("OLD1".toList) ("\n      ".toList) ++
          (("\n        return 0;\n  \x7d\n\x7d\n\n".toList) ++
            (mkRegion headRev (" syntax".toList) ("\n  ".toList) ("\n    ".toList)
              ("syntax".toList) ("\n    ".toList) ("OLD2".toList) ("\n      ".toList) ++
            ("\n        return 1;\n  \x7d\n\x7d\n".toList)))))).final =
      ("// header\n".toList) ++
        mkG1 headFwd (" syntax".toList) ("\n  ".toList) ("\n    ".toList)
          ("syntax".toList) ("\n    ".toList) ++
        ('\n' :: fragmentsGdcm tblAX) ++ (("\n      ".toList) ++ defaultLit) ++
        ("\n        return 0;\n  \x7d\n\x7d\n\n".toList) ++
        mkG1 headRev (" syntax".toList) ("\n  ".toList) ("\n    ".toList)
          ("syntax".toList) ("\n    ".toList) ++
        ('\n' :: fragmentsOrthanc tblAX) ++ (("\n      ".toList) ++ defaultLit) ++
        ("\n        return 1;\n  \x7d\n\x7d\n".toList) :=
  patch_output_frame tblAX ("// header\n".toList)
    ("\n        return 0;\n  \x7d\n\x7d\n\n".toList) ("\n        return 1;\n  \x7d\n\x7d\n".toList)
    (" syntax".toList) ("\n  ".toList) ("\n    ".toList) ("syntax".toList) ("\n    ".toList)
    ("OLD1".toList) ("\n      ".toList)
    (" syntax".toList) ("\n  ".toList) ("\n    ".toList) ("syntax".toList) ("\n    ".toList)
    ("OLD2".toList) ("\n      ".toList)
    (by decide) (by decide) (by decide) (by decide) (by decide) (by decide) (by decide)
    (by decide) (by decide) (by decide) (by decide) (by decide) (by decide) (by decide)
    (by decide) (by decide) (by decide) (by decide) (by decide) (by decide) (by decide)
    (by decide) (by decide) (by decide)

theorem patch_idempotent_witness :
    (GenerateTransferSyntaxes tblAX ((GenerateTransferSyntaxes tblAX
        (("// header\n".toList) ++
          (mkRegion headFwd (" syntax".toList) ("\n  ".toList) ("\n    ".toList)
            ("syntax".toList) ("\n    ".toList) ("OLD1".toList) ("\n      ".toList) ++
          (("\n        return 0;\n  \x7d\n\x7d\n\n".toList) ++
            (mkRegion headRev (" syntax".toList) ("\n  ".toList) ("\n    ".toList)
              ("syntax".toList) ("\n    ".toList) ("OLD2".toList) ("\n      ".toList) ++
            ("\n        return 1;\n  \x7d\n\x7d\n".toList)))))).final)).final =
      (GenerateTransferSyntaxes tblAX
        (("// header\n".toList) ++
          (mkRegion headFwd (" syntax".toList) ("\n  ".toList) ("\n    ".toList)
            ("syntax".toList) ("\n    ".toList) ("OLD1".toList) ("\n      ".toList) ++
          (("\n        return 0;\n  \x7d\n\x7d\n\n".toList) ++
            (mkRegion headRev (" syntax".toList) ("\n  ".toList) ("\n    ".toList)
              ("syntax".toList) ("\n    ".toList) ("OLD2".toList) ("\n      ".toList) ++
            ("\n        return 1;\n  \x7d\n\x7d\n".toList)))))).final :=
  patch_idempotent tblAX ("// header\n".toList)
    ("\n        return 0;\n  \x7d\n\x7d\n\n".toList) ("\n        return 1;\n  \x7d\n\x7d\n".toList)
    (" syntax".toList) ("\n  ".toList) ("\n    ".toList) ("syntax".toList) ("\n    ".toList)
    ("OLD1".toList) ("\n      ".toList)
    (" syntax".toList) ("\n  ".toList) ("\n    ".toList) ("syntax".toList) ("\n    ".toList)
    ("OLD2".toList) ("\n      ".toList)
    (by decide) (by decide) (by decide) (by decide) (by decide) (by decide) (by decide)
    (by decide) (by decide) (by decide) (by decide) (by decide) (by decide) (by decide)
    (by decide) (by decide) (by decide) (by decide) (by decide) (by decide) (by decide)
    (by decide) (by decide) (by decide) (by decide) (by decide) (by decide) (by decide)
    (by decide) (by decide) (by decide)

theorem patch_replaces_later_regions_too_witness :
    (GenerateTransferSyntaxes tblAX
        (("//a\n".toList) ++
          (mkRegion headFwd (" syntax".toList) ("\n  ".toList) ("\n    ".toList)
            ("syntax".toList) ("\n    ".toList) ("OLD1".toList) ("\n      ".toList) ++
          (("\n        return 0;\n  \x7d\n\x7d\n//b\n".toList) ++
            (mkRegion headFwd (" q".toList) ("\n  ".toList) ("\n    ".toList)
              ("q".toList) ("\n    ".toList) ("OLDX".toList) ("\n      ".toList) ++
            ("\n        return 0;\n  \x7d\n\x7d\n".toList)))))).final =
      ("//a\n".toList) ++
        (mkG1 headFwd (" syntax".toList) ("\n  ".toList) ("\n    ".toList)
          ("syntax".toList) ("\n    ".toList) ++
        (('\n' :: fragmentsGdcm tblAX) ++ ((("\n      ".toList) ++ defaultLit) ++
          (("\n        return 0;\n  \x7d\n\x7d\n//b\n".toList) ++
            (mkG1 headFwd (" q".toList) ("\n  ".toList) ("\n    ".toList)
              ("q".toList) ("\n    ".toList) ++
            (('\n' :: fragmentsGdcm tblAX) ++ ((("\n      ".toList) ++ defaultLit) ++
              ("\n        return 0;\n  \x7d\n\x7d\n".toList)))))))) :=
  patch_replaces_later_regions_too tblAX ("//a\n".toList)
    ("\n        return 0;\n  \x7d\n\x7d\n//b\n".toList) ("\n        return 0;\n  \x7d\n\x7d\n".toList)
    (" syntax".toList) ("\n  ".toList) ("\n    ".toList) ("syntax".toList) ("\n    ".toList)
    ("OLD1".toList) ("\n      ".toList)
    (" q".toList) ("\n  ".toList) ("\n    ".toList) ("q".toList) ("\n    ".toList)
    ("OLDX".toList) ("\n      ".toList)
    (by decide) (by decide) (by decide) (by decide) (by decide) (by decide) (by decide)
    (by decide) (by decide) (by decide) (by decide) (by decide) (by decide) (by decide)
    (by decide) (by decide) (by decide) (by decide) (by decide) (by decide) (by decide)
    (by decide) (by decide) (by decide)

end GenTS
